import Mathlib

/-!
Verification development for the Data Cube UI custom-mosaic task module
(`apps/sample_geo_app/tasks.py`): the pixel-wise combination strategies
(`fill_nodata`, `max_value`, `min_value`), the chunk worker
(`generate_TOOL_chunk`), and the orchestrator (`create_cloudfree_mosaic`),
shallowly embedded as pure Lean functions.

Rasters (`xarray` datasets) are embedded as a finite list of band names
together with a total value function over row/column indices; the reserved
nodata sentinel is -9999, as in the source.  The source mutates the band
arrays of `dataset_out` one band at a time through boolean masks; this
sequential per-band update is kept faithfully as a left fold over the band
list, because for `max_value`/`min_value` the mask is recomputed from the
current (possibly already updated) `ndvi` band at each step.
-/

namespace DataCube

/-- Band keys of an xarray dataset are plain strings in the source. -/
abbrev Band := String

/-- The criterion band used by `max_value`/`min_value` (`dataset.ndvi`). -/
def ndviKey : Band := "ndvi"

/-- The quality band dropped before mosaicing (`raw_data.drop('cf_mask')`). -/
def cfMaskKey : Band := "cf_mask"

/-- The reserved nodata sentinel value used throughout the source. -/
def nodata : Int := -9999

/-- An in-memory raster: band names plus a total value function.  `val` is
total over all indices; only `bands` × `nrows` × `ncols` is meaningful. -/
structure Dataset where
  bands : List Band
  nrows : Nat
  ncols : Nat
  val : Band → Nat → Nat → Int

/-- Extensional equality of datasets on their meaningful extent. -/
def Dataset.EqOn (d e : Dataset) : Prop :=
  d.bands = e.bands ∧ d.nrows = e.nrows ∧ d.ncols = e.ncols ∧
    ∀ k ∈ d.bands, ∀ i < d.nrows, ∀ j < d.ncols, d.val k i j = e.val k i j

instance (d e : Dataset) : Decidable (d.EqOn e) := by
  unfold Dataset.EqOn; infer_instance

/-- `raw_data.drop('cf_mask')`: remove one band name from the dataset. -/
def Dataset.dropBand (d : Dataset) (k : Band) : Dataset :=
  { d with bands := d.bands.filter (fun b => b ≠ k) }

/-- One step of the band loop of `fill_nodata`:
`dataset_out[key].values[dataset_out[key].values==-9999] =
 dataset[key].values[dataset_out[key].values==-9999]`. -/
def fill_nodata_step (dataset : Dataset) (out : Dataset) (key : Band) : Dataset :=
  { out with val := fun k i j =>
      if k = key ∧ out.val key i j = nodata then dataset.val k i j else out.val k i j }

/-- `fill_nodata(dataset, dataset_intermediate)` (tasks.py lines 74-81):
with no intermediate, a deep copy of the new dataset; otherwise each band of
the intermediate copy has its nodata pixels replaced from the new dataset,
band by band over `list(dataset_out.data_vars)`. -/
def fill_nodata (dataset : Dataset) (dataset_intermediate : Option Dataset) : Dataset :=
  match dataset_intermediate with
  | none => dataset
  | some di => di.bands.foldl (fill_nodata_step dataset) di

/-- One step of the band loop of `max_value`: the mask
`dataset.ndvi.values > dataset_out.ndvi.values` is recomputed from the
current state of `dataset_out` at every band. -/
def max_value_step (dataset : Dataset) (out : Dataset) (key : Band) : Dataset :=
  { out with val := fun k i j =>
      if k = key ∧ dataset.val ndviKey i j > out.val ndviKey i j then dataset.val k i j
      else out.val k i j }

/-- `max_value(dataset, dataset_intermediate)` (tasks.py lines 83-90). -/
def max_value (dataset : Dataset) (dataset_intermediate : Option Dataset) : Dataset :=
  match dataset_intermediate with
  | none => dataset
  | some di => di.bands.foldl (max_value_step dataset) di

/-- One step of the band loop of `min_value`: mask
`dataset.ndvi.values < dataset_out.ndvi.values`. -/
def min_value_step (dataset : Dataset) (out : Dataset) (key : Band) : Dataset :=
  { out with val := fun k i j =>
      if k = key ∧ dataset.val ndviKey i j < out.val ndviKey i j then dataset.val k i j
      else out.val k i j }

/-- `min_value(dataset, dataset_intermediate)` (tasks.py lines 92-99). -/
def min_value (dataset : Dataset) (dataset_intermediate : Option Dataset) : Dataset :=
  match dataset_intermediate with
  | none => dataset
  | some di => di.bands.foldl (min_value_step dataset) di

/-! ## Acquisition metadata

`acquisition_metadata` is a dict keyed by acquisition date (dates are
embedded as natural-number timestamps) holding a `clean_pixels` count.  It
is embedded as an association list, updated with the source's
"initialise to 0 if absent, then add" pattern, which keeps keys unique. -/

abbrev AcqMeta := List (Nat × Nat)

/-- Dictionary lookup on the association-list embedding of
`acquisition_metadata`. -/
def lookupDate : AcqMeta → Nat → Option Nat
  | [], _ => none
  | e :: es, t => if e.1 = t then some e.2 else lookupDate es t

/-- The clean-pixel count a metadata map records for date `t`
(0 when the date is absent). -/
def dateCount (acc : AcqMeta) (t : Nat) : Nat :=
  (lookupDate acc t).getD 0

/-- Add `px` clean pixels for date `t`:
`if time not in acquisition_metadata: acquisition_metadata[time] = 0;
 acquisition_metadata[time]['clean_pixels'] += clean_pixels`
(tasks.py lines 382-386 and, on the orchestrator side, lines 262-265). -/
def addAcqDate (acc : AcqMeta) (t : Nat) (px : Nat) : AcqMeta :=
  if (lookupDate acc t).isSome then
    acc.map (fun e => if e.1 = t then (e.1, e.2 + px) else e)
  else acc ++ [(t, px)]

/-- Merge one tile's acquisition metadata into the query-wide map
(tasks.py lines 260-265): each entry of the tile map is added in order. -/
def mergeAcqMeta (acc : AcqMeta) (tile : AcqMeta) : AcqMeta :=
  tile.foldl (fun a e => addAcqDate a e.1 e.2) acc

/-- Sum of the clean-pixel counts that a metadata entry list records for
date `d` (for maps with unique keys this is the map's value at `d`). -/
def entrySum (d : Nat) (es : AcqMeta) : Nat :=
  ((es.filter (fun e => e.1 = d)).map (fun e => e.2)).sum

/-! ## Chunk worker (`generate_TOOL_chunk`, tasks.py lines 338-405)

External collaborators are parameters: the per-iteration cancellation
probe (`Result.objects.get` / `result.status == "CANCEL"`), the scene
fetch `dc.get_dataset_by_extent` together with the derived
`create_cfmask_clean_mask` boolean mask, and the per-chunk
`processing_method`.  A clean-pixel mask for a fetched sub-range is a list
of per-timeslice boolean grids. -/

/-- Outcome of the per-iteration cancellation probe: the `Result` row is
gone (`except` branch, plain `return`), its status is `"CANCEL"`, or the
worker may proceed. -/
inductive CancelCheck where
  | missing : CancelCheck
  | cancel : CancelCheck
  | run : CancelCheck
deriving DecidableEq, Repr

/-- What `dc.get_dataset_by_extent` returns for one sub-range: the raw
per-band rasters and, when the quality band is present, the boolean
clean-pixel mask derived from it by `create_cfmask_clean_mask`
(`cf_mask = none` embeds `"cf_mask" not in raw_data`). -/
structure FetchResult where
  raw : Dataset
  cf_mask : Option (List (List (List Bool)))

/-- External collaborators of one chunk-worker run.  `checks` is indexed
by the loop-iteration counter (the probe reads shared state that may
change between iterations); `fetch` is applied to the computed
`time_range` pair. -/
structure ChunkEnv where
  checks : Nat → CancelCheck
  fetch : Nat × Nat → FetchResult
  procMethod : Dataset → List (List (List Bool)) → Option Dataset → Dataset

/-- The fields of `processing_options` that the chunk worker reads. -/
structure ChunkConfig where
  time_slices_per_iteration : Option Nat
  reverse_time : Bool

/-- The cursor advance of tasks.py lines 372 and 395:
`time_slices_per_iteration if ... is not None else 10000`. -/
def cursorStep (cfg : ChunkConfig) : Nat :=
  match cfg.time_slices_per_iteration with
  | some s => s
  | none => 10000

/-- The `(start, end)` fetch window of tasks.py lines 362-367, swapped to
`(end, start)` when `reverse_time` (the one-second nudges become `+ 1` on
natural-number timestamps). -/
def subRange (cfg : ChunkConfig) (acq : List Nat) (time_index : Nat) : Nat × Nat :=
  let start := if cfg.reverse_time then acq.getD time_index 0 + 1 else acq.getD time_index 0
  let stop :=
    match cfg.time_slices_per_iteration with
    | some s =>
        if time_index + s - 1 < acq.length then acq.getD (time_index + s - 1) 0
        else if cfg.reverse_time then acq.getD (acq.length - 1) 0
        else acq.getD (acq.length - 1) 0 + 1
    | none =>
        if cfg.reverse_time then acq.getD (acq.length - 1) 0
        else acq.getD (acq.length - 1) 0 + 1
  if cfg.reverse_time then (stop, start) else (start, stop)

/-- `np.sum(clear_mask[timeslice, :, :] == True)`: clean pixels of one
timeslice of the mask. -/
def countTrue (g : List (List Bool)) : Nat :=
  (g.map (fun row => row.count true)).sum

/-- The `(date, clean_pixels)` pairs tallied by the metadata loop of
tasks.py lines 378-386 for one fetched sub-range:
`time = acquisition_list[time_index + timeslice]`. -/
def sliceObs (acq : List Nat) (time_index : Nat) (mask : List (List (List Bool))) :
    List (Nat × Nat) :=
  (List.range mask.length).map
    (fun ts => (acq.getD (time_index + ts) 0, countTrue (mask.getD ts [])))

/-- Exit of the worker's while loop.  `visited` records the cursor value
at each executed loop entry and `obs` the tallied `(date, clean_pixels)`
observations (both are observational instrumentation of the run).
`spin` is a fuel cutoff that is unreachable whenever the cursor step is
positive and the fuel is at least the acquisition count. -/
inductive LoopExit where
  | missing : List Nat → LoopExit
  | cancel : List Nat → LoopExit
  | done : Option Dataset → AcqMeta → List (Nat × Nat) → List Nat → LoopExit
  | spin : List Nat → LoopExit

/-- The while loop of `generate_TOOL_chunk` (tasks.py lines 350-395):
per iteration, probe for cancellation, compute the sub-range window,
fetch; skip the sub-range when the quality band is absent, otherwise
tally per-date clean pixels, drop `cf_mask`, fold via
`processing_method`, and advance the cursor by `cursorStep`. -/
def chunkLoop (env : ChunkEnv) (cfg : ChunkConfig) (acq : List Nat) :
    Nat → Nat → Nat → Option Dataset → AcqMeta → List (Nat × Nat) → List Nat → LoopExit
  | 0, _, time_index, data, meta, obs, visited =>
    if time_index < acq.length then .spin visited else .done data meta obs visited
  | fuel + 1, iterIdx, time_index, data, meta, obs, visited =>
    if time_index < acq.length then
      match env.checks iterIdx with
      | .missing => .missing (visited ++ [time_index])
      | .cancel => .cancel (visited ++ [time_index])
      | .run =>
        match (env.fetch (subRange cfg acq time_index)).cf_mask with
        | none =>
            chunkLoop env cfg acq fuel (iterIdx + 1) (time_index + cursorStep cfg)
              data meta obs (visited ++ [time_index])
        | some mask =>
            chunkLoop env cfg acq fuel (iterIdx + 1) (time_index + cursorStep cfg)
              (some (env.procMethod
                (((env.fetch (subRange cfg acq time_index)).raw).dropBand cfMaskKey) mask data))
              ((sliceObs acq time_index mask).foldl (fun a e => addAcqDate a e.1 e.2) meta)
              (obs ++ sliceObs acq time_index mask) (visited ++ [time_index])
    else .done data meta obs visited

/-- Scratch locations of the module. -/
def base_temp_path : String := "/ui_results_temp/"

/-- Result artifact locations of the module. -/
def base_result_path : String := "/ui_results/custom_mosaic/"

/-- What one chunk-worker run returns: Python `None` when the Result row
vanished, the string `"CANCEL"`, the empty sentinel `[None, None]`, or
`[geo_path, acquisition_metadata]`; `spin` is the fuel cutoff. -/
inductive WorkerResult where
  | missing : WorkerResult
  | CANCEL : WorkerResult
  | empty : WorkerResult
  | saved : String → AcqMeta → WorkerResult
  | spin : WorkerResult
deriving DecidableEq, Repr

/-- A completed chunk-worker run: its return value, the scratch files it
wrote (`iteration_data.to_netcdf(geo_path)` is the only write, after the
loop), and the instrumented cursor/observation history. -/
structure WorkerRun where
  result : WorkerResult
  written : List String
  visited : List Nat
  obs : List (Nat × Nat)

/-- `generate_TOOL_chunk(time_num, chunk_num, ...)` (tasks.py
lines 338-405): run the acquisition loop, then persist the chunk mosaic
iff one was produced and return `[geo_path, acquisition_metadata]`,
else `[None, None]`. -/
def generate_TOOL_chunk (env : ChunkEnv) (cfg : ChunkConfig) (query_id : String)
    (time_num chunk_num : Nat) (acquisition_list : List Nat) : WorkerRun :=
  match chunkLoop env cfg acquisition_list acquisition_list.length 0 0 none [] [] [] with
  | .missing v => { result := .missing, written := [], visited := v, obs := [] }
  | .cancel v => { result := .CANCEL, written := [], visited := v, obs := [] }
  | .spin v => { result := .spin, written := [], visited := v, obs := [] }
  | .done data meta obs v =>
      match data with
      | none => { result := .empty, written := [], visited := v, obs := obs }
      | some _ =>
          let geo_path := base_temp_path ++ query_id ++ "/geo_chunk_" ++
            toString time_num ++ "_" ++ toString chunk_num ++ ".nc"
          { result := .saved geo_path meta, written := [geo_path], visited := v, obs := obs }

/-! ## Orchestrator (`create_cloudfree_mosaic`, tasks.py lines 148-336)

The progress ledger is the `Result` record's fields read by the task:
`status`, `scenes_processed`, `total_scenes` and `result_path` (the latter
doubles as the error-message container, see `error_with_message`).  Every
assignment to one of these fields appends a snapshot to the run's trace,
so the trace is the sequence of externally observable ledger states.

The dispatched chunk tasks are abstracted by an outcome oracle
`chunkOutcome : Nat → Nat → ChunkOutcome` giving what `t.get()` returns
for each (time group, geo chunk) pair: the dispatch site (lines 229-235)
issues one task per pair of the planner's output (the site spells the
task `generate_mosaic_chunk`; the task defined in this module is the
template-named `generate_TOOL_chunk`). -/

/-- The ledger fields of the `Result` record used by the task. -/
structure Ledger where
  status : String
  scenes_processed : Nat
  total_scenes : Nat
  result_path : String
deriving DecidableEq, Repr

/-- `result.scenes_processed += k`. -/
def bump (led : Ledger) (k : Nat) : Ledger :=
  { led with scenes_processed := led.scenes_processed + k }

/-- Initial status of a freshly generated result record. -/
def statusWait : String := "WAIT"

/-- Terminal error status set by `error_with_message`. -/
def statusError : String := "ERROR"

/-- Terminal success status (tasks.py line 322). -/
def statusOk : String := "OK"

/-- Modelled from the spec: `query.generate_result()` lives in the
sample app's `models.py`, which is not among the sources; per the spec the
progress ledger is created at query start in the WAITING state with both
work-unit counters zero (the analogous `generate_result` of the tsm app's
`models.py` likewise passes `total_scenes=0, scenes_processed=0,
status="WAIT"`). -/
def initialLedger : Ledger :=
  { status := statusWait, scenes_processed := 0, total_scenes := 0, result_path := "" }

/-- Message of tasks.py lines 191 and 332-333. -/
def genericErrorMsg : String := "There was an exception when handling this query."

/-- Message of tasks.py line 204. -/
def noAcqMsg : String := "There were no acquisitions for this parameter set."

/-- `error_with_message(result, message)` (tasks.py lines 407-425):
set status ERROR, store the message in `result_path`, save.  Returns the
final ledger and the emitted snapshots. -/
def error_with_message (led : Ledger) (msg : String) : Ledger × List Ledger :=
  let led1 := { led with status := statusError }
  let led2 := { led1 with result_path := msg }
  (led2, [led1, led2])

/-- What `t.get()` yields for one dispatched chunk: the string
`"CANCEL"`, or a `[path, metadata]` pair whose payload is `None` for an
empty chunk (`[None, None]`).  The persisted chunk mosaic is carried by
value in place of its scratch path. -/
inductive ChunkOutcome where
  | CANCEL : ChunkOutcome
  | result : Option (Dataset × AcqMeta) → ChunkOutcome

/-- Whether a chunk outcome is the cancellation sentinel. -/
def ChunkOutcome.isCancel : ChunkOutcome → Bool
  | .CANCEL => true
  | .result _ => false

/-- The `[path, metadata]` tiles of a list of chunk outcomes whose path is
not `None`, in order (tasks.py lines 253-254). -/
def somePayloads : List ChunkOutcome → List (Dataset × AcqMeta)
  | [] => []
  | .CANCEL :: rest => somePayloads rest
  | .result none :: rest => somePayloads rest
  | .result (some p) :: rest => p :: somePayloads rest

/-- `xr.concat(datasets, dim='latitude')` raises on an empty input list;
otherwise the tiles are joined along the latitude axis. -/
def concatLatitude (a b : Dataset) : Dataset :=
  { bands := a.bands, nrows := a.nrows + b.nrows, ncols := a.ncols,
    val := fun k i j => if i < a.nrows then a.val k i j else b.val k (i - a.nrows) j }

/-- `xr.concat` on a possibly empty list (`none` embeds the `ValueError`
raised for zero datasets, which the task's bare `except` turns into the
generic error). -/
def xr_concat : List Dataset → Option Dataset
  | [] => none
  | d :: ds => some (ds.foldl concatLatitude d)

/-- Result of collecting one time group's chunk results
(tasks.py lines 241-256): either a `"CANCEL"` tile was hit, or all chunks
resolved into a tile list with the ledger bumped once per chunk.  The
emitted ledger snapshots are returned in both cases. -/
inductive GroupCollect where
  | cancelled : List Ledger → GroupCollect
  | done : List (Dataset × AcqMeta) → Ledger → List Ledger → GroupCollect

/-- The inner loop `for t in geographic_group` (tasks.py lines 243-256):
on `"CANCEL"` return at once; otherwise keep tiles with a non-`None`
path, increment `scenes_processed` and save after every chunk. -/
def collectGroup (led : Ledger) : List ChunkOutcome → GroupCollect
  | [] => .done [] led []
  | o :: rest =>
    match o with
    | .CANCEL => .cancelled []
    | .result payload =>
      let led1 := bump led 1
      match collectGroup led1 rest with
      | .cancelled tr => .cancelled (led1 :: tr)
      | .done ts l tr =>
          .done ((match payload with | some p => [p] | none => []) ++ ts) l (led1 :: tr)

/-- Result of the outer loop over time groups (tasks.py lines 240-269).
`concatError` embeds the `ValueError` of `xr.concat` on an empty tile
list escaping to the task's `except` handler.  The `Nat` counts the time
groups folded into the running mosaic. -/
inductive GroupsRun where
  | cancelled : List Ledger → AcqMeta → Nat → GroupsRun
  | concatError : Ledger → List Ledger → AcqMeta → Nat → GroupsRun
  | done : Ledger → List Ledger → AcqMeta → Option Dataset → Nat → GroupsRun

/-- Prepend the ledger snapshots emitted while collecting one group to
the trace of the remaining run. -/
def GroupsRun.withTrace (tr : List Ledger) : GroupsRun → GroupsRun
  | .cancelled tr2 m2 f2 => .cancelled (tr ++ tr2) m2 f2
  | .concatError l2 tr2 m2 f2 => .concatError l2 (tr ++ tr2) m2 f2
  | .done l2 tr2 m2 d2 f2 => .done l2 (tr ++ tr2) m2 d2 f2

/-- The outer loop `for geographic_group in time_chunk_tasks`
(tasks.py lines 240-269): collect the group's chunks, merge their
acquisition metadata additively, concatenate the tiles along latitude
(reversed), and fold the group raster into the running mosaic with the
algorithm's `chunk_combination_method`. -/
def runGroups (combine : Dataset → Option Dataset → Dataset) :
    List (List ChunkOutcome) → Ledger → AcqMeta → Option Dataset → Nat → GroupsRun
  | [], led, m, dout, folded => .done led [] m dout folded
  | g :: gs, led, m, dout, folded =>
    match collectGroup led g with
    | .cancelled tr => .cancelled tr m folded
    | .done tiles led1 tr =>
      let m1 := tiles.foldl (fun a t => mergeAcqMeta a t.2) m
      match xr_concat (tiles.map (fun t => t.1)).reverse with
      | none => .concatError led1 tr m1 folded
      | some full =>
        (runGroups combine gs led1 m1 (some (combine full dout)) (folded + 1)).withTrace tr

/-- The ledger right after planning: `result.total_scenes =
len(time_ranges) * len(lat_ranges)` (tasks.py line 214). -/
def planLedger (nWork : Nat) : Ledger :=
  { initialLedger with total_scenes := nWork }

/-- The dispatch loops of tasks.py lines 229-235: one task per
(time group, geo chunk) pair, grouped by time group. -/
def dispatchGroups (nGroups nChunks : Nat) (outc : Nat → Nat → ChunkOutcome) :
    List (List ChunkOutcome) :=
  (List.range nGroups).map (fun t => (List.range nChunks).map (fun c => outc t c))

/-- Terminal outcome of one orchestrator run. -/
inductive RunOutcome where
  | repeatQuery : Bool → RunOutcome
  | errored : String → RunOutcome
  | cancelled : RunOutcome
  | ok : Nat → RunOutcome
deriving DecidableEq, Repr

/-- Everything externally observable about one orchestrator run: the
terminal outcome, the ledger trace (one snapshot per field assignment),
whether the scratch directory survives, whether the query/metadata/result
records were deleted, whether the query was marked complete, how many
chunk tasks were dispatched and how many time groups were folded, and the
final query-wide acquisition metadata. -/
structure RunResult where
  outcome : RunOutcome
  trace : List Ledger
  scratchExists : Bool
  recordsDeleted : Bool
  queryComplete : Bool
  dispatched : Nat
  foldedGroups : Nat
  finalAcqMeta : AcqMeta

/-- `create_cloudfree_mosaic(query_id, user_id)` (tasks.py lines 148-336),
with the external collaborators as parameters: the count of matching
`Query` rows and whether a `Result` row already exists (lines 169-176),
whether `get_scene_metadata` returned a truthy value (line 190), the
acquisition-date list (line 200), the planner output of `split_task`
(`time_ranges` and the geographic chunk count, line 211), the algorithm's
`chunk_combination_method`, and the outcome oracle for the dispatched
chunk tasks. -/
def create_cloudfree_mosaic (query_id : String) (queriesCount : Nat)
    (resultExists : Bool) (sceneMetadata : Bool) (acquisitions : List Nat)
    (time_ranges : List (List Nat)) (latRangesCount : Nat)
    (combine : Dataset → Option Dataset → Dataset)
    (chunkOutcome : Nat → Nat → ChunkOutcome) : RunResult :=
  if 1 < queriesCount then
    { outcome := .repeatQuery resultExists, trace := [], scratchExists := false,
      recordsDeleted := false, queryComplete := resultExists, dispatched := 0,
      foldedGroups := 0, finalAcqMeta := [] }
  else
    let tr0 := [initialLedger]
    if sceneMetadata = false then
      let e := error_with_message initialLedger genericErrorMsg
      { outcome := .errored genericErrorMsg, trace := tr0 ++ e.2, scratchExists := false,
        recordsDeleted := false, queryComplete := false, dispatched := 0,
        foldedGroups := 0, finalAcqMeta := [] }
    else if acquisitions.length < 1 then
      let e := error_with_message initialLedger noAcqMsg
      { outcome := .errored noAcqMsg, trace := tr0 ++ e.2, scratchExists := false,
        recordsDeleted := false, queryComplete := false, dispatched := 0,
        foldedGroups := 0, finalAcqMeta := [] }
    else
      let nGroups := time_ranges.length
      let led1 := planLedger (nGroups * latRangesCount)
      let groups := dispatchGroups nGroups latRangesCount chunkOutcome
      match runGroups combine groups led1 [] none 0 with
      | .cancelled tr m f =>
          { outcome := .cancelled, trace := tr0 ++ [led1] ++ tr, scratchExists := false,
            recordsDeleted := true, queryComplete := false,
            dispatched := nGroups * latRangesCount, foldedGroups := f, finalAcqMeta := m }
      | .concatError led tr m f =>
          let e := error_with_message led genericErrorMsg
          { outcome := .errored genericErrorMsg, trace := tr0 ++ [led1] ++ tr ++ e.2,
            scratchExists := false, recordsDeleted := false, queryComplete := false,
            dispatched := nGroups * latRangesCount, foldedGroups := f, finalAcqMeta := m }
      | .done led tr m dout f =>
          match dout with
          | none =>
              let e := error_with_message led genericErrorMsg
              { outcome := .errored genericErrorMsg, trace := tr0 ++ [led1] ++ tr ++ e.2,
                scratchExists := false, recordsDeleted := false, queryComplete := false,
                dispatched := nGroups * latRangesCount, foldedGroups := f, finalAcqMeta := m }
          | some _ =>
              let led2 := { led with result_path := base_result_path ++ query_id ++ ".png" }
              let led3 := { led2 with status := statusOk }
              let led4 := { led3 with total_scenes := acquisitions.length }
              { outcome := .ok acquisitions.length,
                trace := tr0 ++ [led1] ++ tr ++ [led2, led3, led4],
                scratchExists := false, recordsDeleted := false, queryComplete := true,
                dispatched := nGroups * latRangesCount, foldedGroups := f, finalAcqMeta := m }

/-! ## Lemmas about the per-band update folds -/

/-- A band key used by concrete instances below. -/
def blueKey : Band := "blue"

theorem foldl_step_bands (step : Dataset → Band → Dataset)
    (h : ∀ out k, (step out k).bands = out.bands) :
    ∀ (l : List Band) (out : Dataset), (l.foldl step out).bands = out.bands
  | [], _ => rfl
  | a :: l, out => by rw [List.foldl_cons, foldl_step_bands step h l, h]

theorem foldl_step_nrows (step : Dataset → Band → Dataset)
    (h : ∀ out k, (step out k).nrows = out.nrows) :
    ∀ (l : List Band) (out : Dataset), (l.foldl step out).nrows = out.nrows
  | [], _ => rfl
  | a :: l, out => by rw [List.foldl_cons, foldl_step_nrows step h l, h]

theorem foldl_step_ncols (step : Dataset → Band → Dataset)
    (h : ∀ out k, (step out k).ncols = out.ncols) :
    ∀ (l : List Band) (out : Dataset), (l.foldl step out).ncols = out.ncols
  | [], _ => rfl
  | a :: l, out => by rw [List.foldl_cons, foldl_step_ncols step h l, h]

theorem fill_nodata_step_ne (d out : Dataset) (key k : Band) (h : k ≠ key) (i j : Nat) :
    (fill_nodata_step d out key).val k i j = out.val k i j := by
  simp [fill_nodata_step, h]

theorem fill_nodata_fold_not_mem (d : Dataset) (k : Band) :
    ∀ (l : List Band) (out : Dataset), k ∉ l →
      ∀ i j, (l.foldl (fill_nodata_step d) out).val k i j = out.val k i j
  | [], _, _, _, _ => rfl
  | a :: l, out, h, i, j => by
    rw [List.foldl_cons,
      fill_nodata_fold_not_mem d k l _ (fun hm => h (List.mem_cons_of_mem a hm)) i j,
      fill_nodata_step_ne d out a k (fun he => h (he ▸ List.mem_cons_self a l)) i j]

theorem fill_nodata_fold_mem (d : Dataset) (k : Band) :
    ∀ (l : List Band) (out : Dataset), l.Nodup → k ∈ l →
      ∀ i j, (l.foldl (fill_nodata_step d) out).val k i j =
        if out.val k i j = nodata then d.val k i j else out.val k i j := by
  intro l
  induction l with
  | nil => intro out _ hk; cases hk
  | cons a l ih =>
    intro out hnd hk i j
    rw [List.nodup_cons] at hnd
    rw [List.foldl_cons]
    rcases List.mem_cons.mp hk with hka | hkl
    · subst hka
      rw [fill_nodata_fold_not_mem d k l _ hnd.1 i j]
      simp [fill_nodata_step]
    · rw [ih _ hnd.2 hkl i j,
        fill_nodata_step_ne d out a k (fun he => hnd.1 (he ▸ hkl)) i j]

theorem max_value_step_ne (d out : Dataset) (key k : Band) (h : k ≠ key) (i j : Nat) :
    (max_value_step d out key).val k i j = out.val k i j := by
  simp [max_value_step, h]

theorem max_value_fold_ndvi (d : Dataset) :
    ∀ (l : List Band) (out : Dataset), ndviKey ∉ l →
      ∀ i j, (l.foldl (max_value_step d) out).val ndviKey i j = out.val ndviKey i j
  | [], _, _, _, _ => rfl
  | a :: l, out, h, i, j => by
    rw [List.foldl_cons,
      max_value_fold_ndvi d l _ (fun hm => h (List.mem_cons_of_mem a hm)) i j,
      max_value_step_ne d out a ndviKey (fun he => h (he ▸ List.mem_cons_self a l)) i j]

theorem max_value_fold_val (d : Dataset) :
    ∀ (l : List Band) (out : Dataset), ndviKey ∉ l →
      ∀ k i j, (l.foldl (max_value_step d) out).val k i j =
        if k ∈ l ∧ d.val ndviKey i j > out.val ndviKey i j then d.val k i j
        else out.val k i j := by
  intro l
  induction l with
  | nil => intro out _ k i j; simp
  | cons a l ih =>
    intro out h k i j
    have ha : (a = ndviKey) = False := by
      simp only [eq_iff_iff, iff_false]
      intro he; exact h (by rw [← he]; exact List.mem_cons_self a l)
    have ha2 : (ndviKey = a) = False := by
      simp only [eq_iff_iff, iff_false]
      intro he; exact h (by rw [he]; exact List.mem_cons_self a l)
    have hl : ndviKey ∉ l := fun hm => h (List.mem_cons_of_mem a hm)
    rw [List.foldl_cons, ih _ hl k i j]
    have hmask : (max_value_step d out a).val ndviKey i j = out.val ndviKey i j := by
      simp [max_value_step, ha2]
    rw [hmask]
    by_cases hgt : d.val ndviKey i j > out.val ndviKey i j
    · by_cases hka : k = a
      · subst hka
        simp [max_value_step, ha2, hgt, List.mem_cons]
      · by_cases hkl : k ∈ l
        · simp [hgt, hkl, List.mem_cons]
        · simp [max_value_step, ha2, hgt, hka, hkl, List.mem_cons]
    · simp [max_value_step, ha2, hgt]

theorem max_value_fold_full (d : Dataset) (l0 : List Band) (h0 : ndviKey ∉ l0)
    (out : Dataset) (k : Band) (i j : Nat) :
    ((l0 ++ [ndviKey]).foldl (max_value_step d) out).val k i j =
      if k ∈ l0 ++ [ndviKey] ∧ d.val ndviKey i j > out.val ndviKey i j then d.val k i j
      else out.val k i j := by
  rw [List.foldl_append]
  simp only [List.foldl_cons, List.foldl_nil]
  have hndvi : ∀ i j, (l0.foldl (max_value_step d) out).val ndviKey i j =
      out.val ndviKey i j := max_value_fold_ndvi d l0 out h0
  by_cases hgt : d.val ndviKey i j > out.val ndviKey i j
  · by_cases hkn : k = ndviKey
    · subst hkn
      simp [max_value_step, hndvi, hgt, List.mem_append]
    · have : (max_value_step d (l0.foldl (max_value_step d) out) ndviKey).val k i j =
          (l0.foldl (max_value_step d) out).val k i j :=
        max_value_step_ne d _ ndviKey k hkn i j
      rw [this, max_value_fold_val d l0 out h0 k i j]
      simp [hgt, hkn, List.mem_append]
  · have hstep : (max_value_step d (l0.foldl (max_value_step d) out) ndviKey).val k i j =
        (l0.foldl (max_value_step d) out).val k i j := by
      simp [max_value_step, hndvi, hgt]
    rw [hstep, max_value_fold_val d l0 out h0 k i j]
    simp [hgt]

theorem min_value_step_ne (d out : Dataset) (key k : Band) (h : k ≠ key) (i j : Nat) :
    (min_value_step d out key).val k i j = out.val k i j := by
  simp [min_value_step, h]

theorem min_value_fold_ndvi (d : Dataset) :
    ∀ (l : List Band) (out : Dataset), ndviKey ∉ l →
      ∀ i j, (l.foldl (min_value_step d) out).val ndviKey i j = out.val ndviKey i j
  | [], _, _, _, _ => rfl
  | a :: l, out, h, i, j => by
    rw [List.foldl_cons,
      min_value_fold_ndvi d l _ (fun hm => h (List.mem_cons_of_mem a hm)) i j,
      min_value_step_ne d out a ndviKey (fun he => h (he ▸ List.mem_cons_self a l)) i j]

theorem min_value_fold_val (d : Dataset) :
    ∀ (l : List Band) (out : Dataset), ndviKey ∉ l →
      ∀ k i j, (l.foldl (min_value_step d) out).val k i j =
        if k ∈ l ∧ d.val ndviKey i j < out.val ndviKey i j then d.val k i j
        else out.val k i j := by
  intro l
  induction l with
  | nil => intro out _ k i j; simp
  | cons a l ih =>
    intro out h k i j
    have ha : (a = ndviKey) = False := by
      simp only [eq_iff_iff, iff_false]
      intro he; exact h (by rw [← he]; exact List.mem_cons_self a l)
    have ha2 : (ndviKey = a) = False := by
      simp only [eq_iff_iff, iff_false]
      intro he; exact h (by rw [he]; exact List.mem_cons_self a l)
    have hl : ndviKey ∉ l := fun hm => h (List.mem_cons_of_mem a hm)
    rw [List.foldl_cons, ih _ hl k i j]
    have hmask : (min_value_step d out a).val ndviKey i j = out.val ndviKey i j := by
      simp [min_value_step, ha2]
    rw [hmask]
    by_cases hlt : d.val ndviKey i j < out.val ndviKey i j
    · by_cases hka : k = a
      · subst hka
        simp [min_value_step, ha2, hlt, List.mem_cons]
      · by_cases hkl : k ∈ l
        · simp [hlt, hkl, List.mem_cons]
        · simp [min_value_step, ha2, hlt, hka, hkl, List.mem_cons]
    · simp [min_value_step, ha2, hlt]

theorem min_value_fold_full (d : Dataset) (l0 : List Band) (h0 : ndviKey ∉ l0)
    (out : Dataset) (k : Band) (i j : Nat) :
    ((l0 ++ [ndviKey]).foldl (min_value_step d) out).val k i j =
      if k ∈ l0 ++ [ndviKey] ∧ d.val ndviKey i j < out.val ndviKey i j then d.val k i j
      else out.val k i j := by
  rw [List.foldl_append]
  simp only [List.foldl_cons, List.foldl_nil]
  have hndvi : ∀ i j, (l0.foldl (min_value_step d) out).val ndviKey i j =
      out.val ndviKey i j := min_value_fold_ndvi d l0 out h0
  by_cases hlt : d.val ndviKey i j < out.val ndviKey i j
  · by_cases hkn : k = ndviKey
    · subst hkn
      simp [min_value_step, hndvi, hlt, List.mem_append]
    · have : (min_value_step d (l0.foldl (min_value_step d) out) ndviKey).val k i j =
          (l0.foldl (min_value_step d) out).val k i j :=
        min_value_step_ne d _ ndviKey k hkn i j
      rw [this, min_value_fold_val d l0 out h0 k i j]
      simp [hlt, hkn, List.mem_append]
  · have hstep : (min_value_step d (l0.foldl (min_value_step d) out) ndviKey).val k i j =
        (l0.foldl (min_value_step d) out).val k i j := by
      simp [min_value_step, hndvi, hlt]
    rw [hstep, min_value_fold_val d l0 out h0 k i j]
    simp [hlt]

/-! ## Claim C5: fill_nodata pointwise behavior -/

/-- C5: `fill_nodata(newDataset, None)` returns a copy of the new
dataset; with an intermediate, each band keeps the intermediate's value
at pixels that are not the nodata sentinel and takes the new dataset's
value where the intermediate holds the nodata sentinel. -/
theorem claim_C5_fill_nodata (d di : Dataset) (hnd : di.bands.Nodup) :
    fill_nodata d none = d ∧
    (fill_nodata d (some di)).bands = di.bands ∧
    ∀ k ∈ di.bands, ∀ i j,
      (fill_nodata d (some di)).val k i j =
        if di.val k i j = nodata then d.val k i j else di.val k i j := by
  refine ⟨rfl, ?_, ?_⟩
  · exact foldl_step_bands (fill_nodata_step d) (fun _ _ => rfl) di.bands di
  · intro k hk i j
    exact fill_nodata_fold_mem d k di.bands di hnd hk i j

/-- Concrete intermediate with one nodata pixel, for the C5 witness. -/
def wsInter : Dataset := ⟨[blueKey], 1, 2, fun _ _ j => if j = 0 then nodata else 7⟩

/-- Concrete replacement dataset for the C5 witness. -/
def wsNew : Dataset := ⟨[blueKey], 1, 2, fun _ _ _ => 3⟩

/-- Witness for C5 at a concrete dataset pair: the nodata pixel takes the
new dataset's value 3, the valid pixel keeps the intermediate's value 7. -/
theorem claim_C5_witness :
    fill_nodata wsNew none = wsNew ∧
    (fill_nodata wsNew (some wsInter)).bands = wsInter.bands ∧
    (fill_nodata wsNew (some wsInter)).val blueKey 0 0 = 3 ∧
    (fill_nodata wsNew (some wsInter)).val blueKey 0 1 = 7 := by
  have h := claim_C5_fill_nodata wsNew wsInter (by decide)
  refine ⟨h.1, h.2.1, ?_, ?_⟩
  · rw [h.2.2 blueKey (by decide) 0 0]
    decide
  · rw [h.2.2 blueKey (by decide) 0 1]
    decide

/-! ## Claim C3: max_value / min_value fold-order independence -/

/-- Tie instance A: equal ndvi, different blue. -/
def tieA : Dataset := ⟨[blueKey, ndviKey], 1, 1, fun k _ _ => if k = blueKey then 1 else 5⟩

/-- Tie instance B: equal ndvi, different blue. -/
def tieB : Dataset := ⟨[blueKey, ndviKey], 1, 1, fun k _ _ => if k = blueKey then 2 else 5⟩

/-- C3 as stated is false: at a pixel where the criterion values of A and
B are equal but another band differs, folding `[A, B]` keeps A's values
and folding `[B, A]` keeps B's, so the results are not identical. -/
theorem claim_C3_counterexample :
    ¬ ((max_value tieB (some (max_value tieA none))).EqOn
          (max_value tieA (some (max_value tieB none))) ∧
       (min_value tieB (some (min_value tieA none))).EqOn
          (min_value tieA (some (min_value tieB none)))) := by
  decide

/-- C3 amended: when the two datasets carry the same bands with the
criterion band `ndvi` last, and their criterion values differ at every
pixel in range, folding from an empty intermediate in either order yields
identical results, for `max_value` and for `min_value` alike. -/
theorem claim_C3_maxmin_commute (A B : Dataset) (l0 : List Band)
    (hA : A.bands = l0 ++ [ndviKey]) (hB : B.bands = l0 ++ [ndviKey])
    (h0 : ndviKey ∉ l0) (hr : A.nrows = B.nrows) (hc : A.ncols = B.ncols)
    (hdiff : ∀ i < A.nrows, ∀ j < A.ncols, A.val ndviKey i j ≠ B.val ndviKey i j) :
    (max_value B (some (max_value A none))).EqOn
      (max_value A (some (max_value B none))) ∧
    (min_value B (some (min_value A none))).EqOn
      (min_value A (some (min_value B none))) := by
  have hmaxAB : max_value B (some (max_value A none)) =
      A.bands.foldl (max_value_step B) A := rfl
  have hmaxBA : max_value A (some (max_value B none)) =
      B.bands.foldl (max_value_step A) B := rfl
  have hminAB : min_value B (some (min_value A none)) =
      A.bands.foldl (min_value_step B) A := rfl
  have hminBA : min_value A (some (min_value B none)) =
      B.bands.foldl (min_value_step A) B := rfl
  constructor
  · rw [hmaxAB, hmaxBA]
    refine ⟨?_, ?_, ?_, ?_⟩
    · rw [foldl_step_bands (max_value_step B) (fun _ _ => rfl),
        foldl_step_bands (max_value_step A) (fun _ _ => rfl), hA, hB]
    · rw [foldl_step_nrows (max_value_step B) (fun _ _ => rfl),
        foldl_step_nrows (max_value_step A) (fun _ _ => rfl), hr]
    · rw [foldl_step_ncols (max_value_step B) (fun _ _ => rfl),
        foldl_step_ncols (max_value_step A) (fun _ _ => rfl), hc]
    · intro k hk i hi j hj
      rw [foldl_step_bands (max_value_step B) (fun _ _ => rfl), hA] at hk
      rw [foldl_step_nrows (max_value_step B) (fun _ _ => rfl)] at hi
      rw [foldl_step_ncols (max_value_step B) (fun _ _ => rfl)] at hj
      rw [hA, hB, max_value_fold_full B l0 h0 A k i j,
        max_value_fold_full A l0 h0 B k i j]
      rcases lt_or_gt_of_ne (hdiff i hi j hj) with hlt | hgt
      · simp [hk, hlt, not_lt_of_gt hlt]
      · simp [hk, hgt, not_lt_of_gt hgt]
  · rw [hminAB, hminBA]
    refine ⟨?_, ?_, ?_, ?_⟩
    · rw [foldl_step_bands (min_value_step B) (fun _ _ => rfl),
        foldl_step_bands (min_value_step A) (fun _ _ => rfl), hA, hB]
    · rw [foldl_step_nrows (min_value_step B) (fun _ _ => rfl),
        foldl_step_nrows (min_value_step A) (fun _ _ => rfl), hr]
    · rw [foldl_step_ncols (min_value_step B) (fun _ _ => rfl),
        foldl_step_ncols (min_value_step A) (fun _ _ => rfl), hc]
    · intro k hk i hi j hj
      rw [foldl_step_bands (min_value_step B) (fun _ _ => rfl), hA] at hk
      rw [foldl_step_nrows (min_value_step B) (fun _ _ => rfl)] at hi
      rw [foldl_step_ncols (min_value_step B) (fun _ _ => rfl)] at hj
      rw [hA, hB, min_value_fold_full B l0 h0 A k i j,
        min_value_fold_full A l0 h0 B k i j]
      rcases lt_or_gt_of_ne (hdiff i hi j hj) with hlt | hgt
      · simp [hk, hlt, not_lt_of_gt hlt]
      · simp [hk, hgt, not_lt_of_gt hgt]

/-- Distinct-criterion instance A for the C3 witness. -/
def difA : Dataset := ⟨[blueKey, ndviKey], 1, 1, fun k _ _ => if k = blueKey then 1 else 5⟩

/-- Distinct-criterion instance B for the C3 witness. -/
def difB : Dataset := ⟨[blueKey, ndviKey], 1, 1, fun k _ _ => if k = blueKey then 2 else 7⟩

/-- Witness for the amended C3 at a concrete dataset pair with distinct
criterion values. -/
theorem claim_C3_witness :
    (max_value difB (some (max_value difA none))).EqOn
      (max_value difA (some (max_value difB none))) ∧
    (min_value difB (some (min_value difA none))).EqOn
      (min_value difA (some (min_value difB none))) :=
  claim_C3_maxmin_commute difA difB [blueKey] rfl rfl (by decide) rfl rfl (by decide)

/-! ## Claim C10: repeat-query short circuit -/

/-- An arbitrary chunk-outcome oracle for concrete instances. -/
def anyOutcome : Nat → Nat → ChunkOutcome := fun _ _ => .CANCEL

/-- C10: when more than one Query record matches, the orchestrator does
no planning, dispatches no chunk, performs no ledger update, returns at
once, and marks the query complete exactly when a Result record already
exists. -/
theorem claim_C10_repeat_query (qid : String) (qc : Nat) (re sm : Bool)
    (acq : List Nat) (trs : List (List Nat)) (lrc : Nat)
    (combine : Dataset → Option Dataset → Dataset)
    (outc : Nat → Nat → ChunkOutcome) (h : 1 < qc) :
    create_cloudfree_mosaic qid qc re sm acq trs lrc combine outc =
      { outcome := .repeatQuery re, trace := [], scratchExists := false,
        recordsDeleted := false, queryComplete := re, dispatched := 0,
        foldedGroups := 0, finalAcqMeta := [] } := by
  simp [create_cloudfree_mosaic, h]

/-- Witness for C10 with two matching query records and a cached result. -/
theorem claim_C10_witness :
    create_cloudfree_mosaic "q" 2 true false [] [] 0 fill_nodata anyOutcome =
      { outcome := .repeatQuery true, trace := [], scratchExists := false,
        recordsDeleted := false, queryComplete := true, dispatched := 0,
        foldedGroups := 0, finalAcqMeta := [] } :=
  claim_C10_repeat_query "q" 2 true false [] [] 0 fill_nodata anyOutcome (by decide)

/-! ## Chunk-loop step lemmas -/

theorem chunkLoop_exit (env : ChunkEnv) (cfg : ChunkConfig) (acq : List Nat)
    (fuel iterIdx ti : Nat) (data : Option Dataset) (meta : AcqMeta)
    (obs : List (Nat × Nat)) (visited : List Nat) (h : ¬ ti < acq.length) :
    chunkLoop env cfg acq fuel iterIdx ti data meta obs visited =
      .done data meta obs visited := by
  cases fuel with
  | zero => simp [chunkLoop, h]
  | succ f => simp [chunkLoop, h]

theorem chunkLoop_skip (env : ChunkEnv) (cfg : ChunkConfig) (acq : List Nat)
    (f iterIdx ti : Nat) (data : Option Dataset) (meta : AcqMeta)
    (obs : List (Nat × Nat)) (visited : List Nat)
    (hti : ti < acq.length) (hchk : env.checks iterIdx = .run)
    (hm : (env.fetch (subRange cfg acq ti)).cf_mask = none) :
    chunkLoop env cfg acq (f + 1) iterIdx ti data meta obs visited =
      chunkLoop env cfg acq f (iterIdx + 1) (ti + cursorStep cfg)
        data meta obs (visited ++ [ti]) := by
  rw [chunkLoop, if_pos hti, hchk, hm]

theorem chunkLoop_mask (env : ChunkEnv) (cfg : ChunkConfig) (acq : List Nat)
    (f iterIdx ti : Nat) (data : Option Dataset) (meta : AcqMeta)
    (obs : List (Nat × Nat)) (visited : List Nat)
    (mask : List (List (List Bool)))
    (hti : ti < acq.length) (hchk : env.checks iterIdx = .run)
    (hm : (env.fetch (subRange cfg acq ti)).cf_mask = some mask) :
    chunkLoop env cfg acq (f + 1) iterIdx ti data meta obs visited =
      chunkLoop env cfg acq f (iterIdx + 1) (ti + cursorStep cfg)
        (some (env.procMethod
          (((env.fetch (subRange cfg acq ti)).raw).dropBand cfMaskKey) mask data))
        ((sliceObs acq ti mask).foldl (fun a e => addAcqDate a e.1 e.2) meta)
        (obs ++ sliceObs acq ti mask) (visited ++ [ti]) := by
  rw [chunkLoop, if_pos hti, hchk, hm]

theorem chunkLoop_cancel_exit (env : ChunkEnv) (cfg : ChunkConfig) (acq : List Nat)
    (f iterIdx ti : Nat) (data : Option Dataset) (meta : AcqMeta)
    (obs : List (Nat × Nat)) (visited : List Nat)
    (hti : ti < acq.length) (hchk : env.checks iterIdx = .cancel) :
    chunkLoop env cfg acq (f + 1) iterIdx ti data meta obs visited =
      .cancel (visited ++ [ti]) := by
  rw [chunkLoop, if_pos hti, hchk]

/-! ## Claim C6: a CANCEL probe stops the worker with nothing written -/

theorem chunkLoop_reaches_cancel (env : ChunkEnv) (cfg : ChunkConfig) (acq : List Nat) :
    ∀ (k fuel iterIdx ti : Nat) (data : Option Dataset) (meta : AcqMeta)
      (obs : List (Nat × Nat)) (visited : List Nat),
      k < fuel → ti + k * cursorStep cfg < acq.length →
      (∀ j < k, env.checks (iterIdx + j) = .run) →
      env.checks (iterIdx + k) = .cancel →
      ∃ v, chunkLoop env cfg acq fuel iterIdx ti data meta obs visited = .cancel v := by
  intro k
  induction k with
  | zero =>
    intro fuel iterIdx ti data meta obs visited hfuel hreach _ hcan
    have hti : ti < acq.length := by simpa using hreach
    obtain ⟨f, rfl⟩ : ∃ f, fuel = f + 1 := ⟨fuel - 1, by omega⟩
    exact ⟨visited ++ [ti],
      chunkLoop_cancel_exit env cfg acq f iterIdx ti data meta obs visited hti
        (by simpa using hcan)⟩
  | succ k ih =>
    intro fuel iterIdx ti data meta obs visited hfuel hreach hrun hcan
    have hti : ti < acq.length := by
      have : ti ≤ ti + (k + 1) * cursorStep cfg := Nat.le_add_right ti _
      omega
    obtain ⟨f, rfl⟩ : ∃ f, fuel = f + 1 := ⟨fuel - 1, by omega⟩
    have hreach2 : (ti + cursorStep cfg) + k * cursorStep cfg < acq.length := by
      rw [Nat.succ_mul] at hreach; omega
    have hrun0 : env.checks iterIdx = .run := by
      simpa using hrun 0 (Nat.succ_pos k)
    have hrun2 : ∀ j < k, env.checks (iterIdx + 1 + j) = .run := by
      intro j hj
      have := hrun (j + 1) (by omega)
      rwa [show iterIdx + (j + 1) = iterIdx + 1 + j by omega] at this
    have hcan2 : env.checks (iterIdx + 1 + k) = .cancel := by
      rwa [show iterIdx + 1 + k = iterIdx + (k + 1) by omega]
    cases hm : (env.fetch (subRange cfg acq ti)).cf_mask with
    | none =>
      rw [chunkLoop_skip env cfg acq f iterIdx ti data meta obs visited hti hrun0 hm]
      exact ih f (iterIdx + 1) (ti + cursorStep cfg) data meta obs (visited ++ [ti])
        (by omega) hreach2 hrun2 hcan2
    | some mask =>
      rw [chunkLoop_mask env cfg acq f iterIdx ti data meta obs visited mask hti hrun0 hm]
      exact ih f (iterIdx + 1) (ti + cursorStep cfg) _ _ _ (visited ++ [ti])
        (by omega) hreach2 hrun2 hcan2

/-- C6: if the cancellation probe at the start of a reached iteration
reports CANCEL (all earlier probes passing), the chunk worker returns the
`"CANCEL"` sentinel immediately and writes no scratch file: persistence
happens only after the loop exits normally. -/
theorem claim_C6_cancel_stops (env : ChunkEnv) (cfg : ChunkConfig) (qid : String)
    (tn cn : Nat) (acq : List Nat) (k : Nat)
    (hstep : 0 < cursorStep cfg)
    (hreach : k * cursorStep cfg < acq.length)
    (hrun : ∀ j < k, env.checks j = .run)
    (hcan : env.checks k = .cancel) :
    (generate_TOOL_chunk env cfg qid tn cn acq).result = .CANCEL ∧
    (generate_TOOL_chunk env cfg qid tn cn acq).written = [] := by
  have hk : k < acq.length := by
    have h1 : k * 1 ≤ k * cursorStep cfg := Nat.mul_le_mul_left k hstep
    omega
  obtain ⟨v, hv⟩ := chunkLoop_reaches_cancel env cfg acq k acq.length 0 0
    none [] [] [] hk (by simpa using hreach) (by simpa using hrun) (by simpa using hcan)
  unfold generate_TOOL_chunk
  rw [hv]
  exact ⟨rfl, rfl⟩

/-- A raster placeholder for concrete worker environments. -/
def emptyRaster : Dataset := ⟨[], 0, 0, fun _ _ _ => nodata⟩

/-- Environment whose probe passes once and cancels from then on, never
finding the quality band. -/
def cancelEnv : ChunkEnv :=
  ⟨fun n => if n = 0 then .run else .cancel, fun _ => ⟨emptyRaster, none⟩, fun d _ _ => d⟩

/-- The `most_recent` configuration of `processing_algorithms`. -/
def mostRecentConfig : ChunkConfig := ⟨some 5, true⟩

/-- Witness for C6: the probe cancels at the second reached iteration. -/
theorem claim_C6_witness :
    (generate_TOOL_chunk cancelEnv mostRecentConfig "q" 0 0 [1, 2, 3, 4, 5, 6, 7]).result =
      .CANCEL ∧
    (generate_TOOL_chunk cancelEnv mostRecentConfig "q" 0 0 [1, 2, 3, 4, 5, 6, 7]).written =
      [] :=
  claim_C6_cancel_stops cancelEnv mostRecentConfig "q" 0 0 [1, 2, 3, 4, 5, 6, 7] 1
    (by decide) (by decide) (by decide) (by decide)

/-! ## Claim C4: the unset time_slices_per_iteration sentinel -/

/-- C4 amended: with `time_slices_per_iteration` unset, the cursor is
advanced by the fixed sentinel 10000, so the loop body runs exactly once
per chunk whenever the acquisition list has at most 10000 entries. -/
theorem claim_C4_unset_slices (env : ChunkEnv) (cfg : ChunkConfig) (qid : String)
    (tn cn : Nat) (acq : List Nat)
    (hnone : cfg.time_slices_per_iteration = none)
    (h0 : 0 < acq.length) (hlen : acq.length ≤ 10000)
    (hchk : env.checks 0 = .run) :
    cursorStep cfg = 10000 ∧
    (generate_TOOL_chunk env cfg qid tn cn acq).visited = [0] := by
  have hcs : cursorStep cfg = 10000 := by simp [cursorStep, hnone]
  refine ⟨hcs, ?_⟩
  obtain ⟨f, hf⟩ : ∃ f, acq.length = f + 1 := ⟨acq.length - 1, by omega⟩
  have hstop : ¬ 0 + cursorStep cfg < acq.length := by omega
  unfold generate_TOOL_chunk
  rw [hf]
  cases hm : (env.fetch (subRange cfg acq 0)).cf_mask with
  | none =>
    rw [chunkLoop_skip env cfg acq f 0 0 none [] [] [] (hf ▸ h0) hchk hm,
      chunkLoop_exit env cfg acq f 1 (0 + cursorStep cfg) none [] [] ([] ++ [0]) hstop]
    rfl
  | some mask =>
    rw [chunkLoop_mask env cfg acq f 0 0 none [] [] [] mask (hf ▸ h0) hchk hm,
      chunkLoop_exit env cfg acq f 1 (0 + cursorStep cfg) _ _ _ ([] ++ [0]) hstop]
    rfl

/-- Environment that always passes the probe and never finds the quality
band. -/
def skipEnv : ChunkEnv := ⟨fun _ => .run, fun _ => ⟨emptyRaster, none⟩, fun d _ _ => d⟩

/-- A configuration with `time_slices_per_iteration` unset. -/
def unsetConfig : ChunkConfig := ⟨none, false⟩

/-- An acquisition list longer than the 10000 sentinel. -/
def longAcq : List Nat := List.replicate 10001 0

/-- C4 as stated is false: with `time_slices_per_iteration` unset and
10001 acquisitions, the cursor lands on 10000 after the first iteration,
which is still inside the list, so the loop body runs a second time
instead of having consumed the whole list exactly once. -/
theorem chunkLoop_skip_fuel (env : ChunkEnv) (cfg : ChunkConfig) (acq : List Nat)
    (fuel iterIdx ti : Nat) (data : Option Dataset) (meta : AcqMeta)
    (obs : List (Nat × Nat)) (visited : List Nat)
    (hfuel : 0 < fuel) (hti : ti < acq.length) (hchk : env.checks iterIdx = .run)
    (hm : (env.fetch (subRange cfg acq ti)).cf_mask = none) :
    chunkLoop env cfg acq fuel iterIdx ti data meta obs visited =
      chunkLoop env cfg acq (fuel - 1) (iterIdx + 1) (ti + cursorStep cfg)
        data meta obs (visited ++ [ti]) := by
  obtain ⟨f, rfl⟩ : ∃ f, fuel = f + 1 := ⟨fuel - 1, by omega⟩
  simpa using chunkLoop_skip env cfg acq f iterIdx ti data meta obs visited hti hchk hm

theorem claim_C4_counterexample :
    longAcq.length = 10001 ∧
    (generate_TOOL_chunk skipEnv unsetConfig "q" 0 0 longAcq).visited = [0, 10000] := by
  have hlen : longAcq.length = 10001 := by unfold longAcq; rw [List.length_replicate]
  refine ⟨hlen, ?_⟩
  have hcs : cursorStep unsetConfig = 10000 := rfl
  have step1 : chunkLoop skipEnv unsetConfig longAcq 10001 0 0 none [] [] [] =
      chunkLoop skipEnv unsetConfig longAcq 10000 1 10000 none [] [] [0] := by
    have h := chunkLoop_skip_fuel skipEnv unsetConfig longAcq 10001 0 0 none [] [] []
      (by omega) (by rw [hlen]; omega) rfl rfl
    simpa [hcs] using h
  have step2 : chunkLoop skipEnv unsetConfig longAcq 10000 1 10000 none [] [] [0] =
      chunkLoop skipEnv unsetConfig longAcq 9999 2 20000 none [] [] [0, 10000] := by
    have h := chunkLoop_skip_fuel skipEnv unsetConfig longAcq 10000 1 10000 none [] [] [0]
      (by omega) (by rw [hlen]; omega) rfl rfl
    simpa [hcs] using h
  have step3 : chunkLoop skipEnv unsetConfig longAcq 9999 2 20000 none [] [] [0, 10000] =
      .done none [] [] [0, 10000] :=
    chunkLoop_exit skipEnv unsetConfig longAcq 9999 2 20000 none [] [] [0, 10000]
      (by rw [hlen]; omega)
  unfold generate_TOOL_chunk
  rw [hlen, step1, step2, step3]

/-- Witness for the amended C4: three acquisitions, unset slice count,
one loop-body execution. -/
theorem claim_C4_witness :
    cursorStep unsetConfig = 10000 ∧
    (generate_TOOL_chunk skipEnv unsetConfig "q" 0 0 [1, 2, 3]).visited = [0] :=
  claim_C4_unset_slices skipEnv unsetConfig "q" 0 0 [1, 2, 3] rfl (by decide) (by decide) rfl

/-! ## Ledger snapshot arithmetic -/

/-- The ledger snapshots emitted by `k` consecutive
`scenes_processed += 1; save()` steps from `led`. -/
def snapshots (led : Ledger) (k : Nat) : List Ledger :=
  (List.range k).map (fun i => bump led (i + 1))

theorem bump_zero (led : Ledger) : bump led 0 = led := by
  cases led; simp [bump]

theorem bump_bump (led : Ledger) (a b : Nat) :
    bump (bump led a) b = bump led (a + b) := by
  simp [bump, Nat.add_assoc]

theorem bump_status (led : Ledger) (k : Nat) : (bump led k).status = led.status := rfl

theorem bump_total (led : Ledger) (k : Nat) :
    (bump led k).total_scenes = led.total_scenes := rfl

theorem bump_scenes (led : Ledger) (k : Nat) :
    (bump led k).scenes_processed = led.scenes_processed + k := rfl

theorem snapshots_zero (led : Ledger) : snapshots led 0 = [] := rfl

theorem snapshots_succ (led : Ledger) (k : Nat) :
    snapshots led (k + 1) = bump led 1 :: snapshots (bump led 1) k := by
  unfold snapshots
  rw [List.range_succ_eq_map, List.map_cons, List.map_map]
  refine congrArg₂ _ rfl ?_
  refine List.map_congr_left ?_
  intro i _
  simp only [Function.comp, bump_bump]
  refine congrArg _ (by omega)

theorem snapshots_append (led : Ledger) (a b : Nat) :
    snapshots led (a + b) = snapshots led a ++ snapshots (bump led a) b := by
  unfold snapshots
  rw [List.range_add, List.map_append, List.map_map]
  refine congrArg₂ _ rfl ?_
  refine List.map_congr_left ?_
  intro i _
  simp only [Function.comp, bump_bump]
  refine congrArg _ (by omega)

theorem mem_snapshots (led : Ledger) (k : Nat) (l : Ledger) (h : l ∈ snapshots led k) :
    ∃ i, i < k ∧ l = bump led (i + 1) := by
  unfold snapshots at h
  obtain ⟨i, hi, rfl⟩ := List.mem_map.mp h
  exact ⟨i, List.mem_range.mp hi, rfl⟩

/-! ## Group-collection spec lemmas -/

/-- Trace projection of a group collection result. -/
def GroupCollect.traceOf : GroupCollect → List Ledger
  | .cancelled tr => tr
  | .done _ _ tr => tr

theorem somePayloads_cancel (rest : List ChunkOutcome) :
    somePayloads (ChunkOutcome.CANCEL :: rest) = somePayloads rest := rfl

theorem somePayloads_ne_nil (os : List ChunkOutcome) (o : ChunkOutcome)
    (p : Dataset × AcqMeta) (ho : o ∈ os) (he : o = ChunkOutcome.result (some p)) :
    somePayloads os ≠ [] := by
  induction os with
  | nil => cases ho
  | cons a rest ih =>
    rcases List.mem_cons.mp ho with rfl | hmem
    · rw [he]; simp [somePayloads]
    · cases a with
      | CANCEL => simpa [somePayloads] using ih hmem
      | result payload =>
        cases payload with
        | none => simpa [somePayloads] using ih hmem
        | some q => simp [somePayloads]

theorem somePayloads_all_empty (os : List ChunkOutcome)
    (h : ∀ o ∈ os, o = ChunkOutcome.result none) : somePayloads os = [] := by
  induction os with
  | nil => rfl
  | cons a rest ih =>
    have ha := h a (List.mem_cons_self a rest)
    subst ha
    exact ih (fun o ho => h o (List.mem_cons_of_mem _ ho))

theorem collectGroup_done_inv (os : List ChunkOutcome) :
    ∀ (led : Ledger) (ts : List (Dataset × AcqMeta)) (l : Ledger) (tr : List Ledger),
      collectGroup led os = .done ts l tr →
      ts = somePayloads os ∧ l = bump led os.length ∧ tr = snapshots led os.length := by
  induction os with
  | nil =>
    intro led ts l tr h
    rw [collectGroup] at h
    cases h
    exact ⟨rfl, (bump_zero led).symm, rfl⟩
  | cons o rest ih =>
    intro led ts l tr h
    cases o with
    | CANCEL => rw [collectGroup] at h; cases h
    | result payload =>
      rw [collectGroup.eq_def] at h
      simp only [] at h
      cases hin : collectGroup (bump led 1) rest with
      | cancelled tr2 => rw [hin] at h; cases h
      | done ts2 l2 tr2 =>
        rw [hin] at h
        obtain ⟨hts, hl, htr⟩ := ih (bump led 1) ts2 l2 tr2 hin
        injection h with h1 h2 h3
        refine ⟨?_, ?_, ?_⟩
        · rw [← h1, hts]
          cases payload with
          | none => simp [somePayloads]
          | some p => simp [somePayloads]
        · rw [← h2, hl, bump_bump]
          exact congrArg _ (by simp [List.length_cons]; omega)
        · rw [← h3, htr, List.length_cons, snapshots_succ]

theorem collectGroup_cancelled_inv (os : List ChunkOutcome) :
    ∀ (led : Ledger) (tr : List Ledger),
      collectGroup led os = .cancelled tr →
      ∃ k, k ≤ os.length ∧ tr = snapshots led k := by
  induction os with
  | nil => intro led tr h; rw [collectGroup] at h; cases h
  | cons o rest ih =>
    intro led tr h
    cases o with
    | CANCEL =>
      rw [collectGroup] at h
      cases h
      exact ⟨0, Nat.zero_le _, rfl⟩
    | result payload =>
      rw [collectGroup.eq_def] at h
      simp only [] at h
      cases hin : collectGroup (bump led 1) rest with
      | cancelled tr2 =>
        rw [hin] at h
        obtain ⟨k, hk, htr⟩ := ih (bump led 1) tr2 hin
        injection h with h1
        refine ⟨k + 1, by simp [List.length_cons]; omega, ?_⟩
        rw [← h1, htr, snapshots_succ]
      | done ts2 l2 tr2 => rw [hin] at h; cases h

theorem collectGroup_no_cancel (os : List ChunkOutcome) :
    ∀ (led : Ledger), (∀ o ∈ os, o.isCancel = false) →
      collectGroup led os =
        .done (somePayloads os) (bump led os.length) (snapshots led os.length) := by
  induction os with
  | nil =>
    intro led _
    rfl
  | cons o rest ih =>
    intro led h
    cases o with
    | CANCEL => simpa [ChunkOutcome.isCancel] using h _ (List.mem_cons_self _ rest)
    | result payload =>
      have hmem : ∀ x ∈ rest, x.isCancel = false :=
        fun x hx => h x (List.mem_cons_of_mem _ hx)
      have h1 : bump (bump led 1) rest.length = bump led (rest.length + 1) := by
        rw [bump_bump]
        exact congrArg _ (by omega)
      cases payload with
      | none =>
        rw [collectGroup.eq_def]
        simp only []
        rw [ih (bump led 1) hmem]
        show GroupCollect.done ([] ++ somePayloads rest) (bump (bump led 1) rest.length)
            (bump led 1 :: snapshots (bump led 1) rest.length) = _
        rw [List.nil_append, h1, List.length_cons, snapshots_succ]
        rfl
      | some p =>
        rw [collectGroup.eq_def]
        simp only []
        rw [ih (bump led 1) hmem]
        show GroupCollect.done ([p] ++ somePayloads rest) (bump (bump led 1) rest.length)
            (bump led 1 :: snapshots (bump led 1) rest.length) = _
        rw [List.singleton_append, h1, List.length_cons, snapshots_succ]
        rfl

/-! ## Outer-loop spec lemmas -/

/-- Trace projection of an outer-loop result. -/
def GroupsRun.traceOf : GroupsRun → List Ledger
  | .cancelled tr _ _ => tr
  | .concatError _ tr _ _ => tr
  | .done _ tr _ _ _ => tr

/-- Final ledger of an outer-loop result, absent on cancellation. -/
def GroupsRun.ledOut : GroupsRun → Option Ledger
  | .cancelled _ _ _ => none
  | .concatError l _ _ _ => some l
  | .done l _ _ _ _ => some l

/-- Whether the outer loop ran every group to completion. -/
def GroupsRun.isDone : GroupsRun → Bool
  | .done _ _ _ _ _ => true
  | _ => false

theorem xr_concat_some (ds : List Dataset) (h : ds ≠ []) :
    ∃ d, xr_concat ds = some d := by
  cases ds with
  | nil => exact absurd rfl h
  | cons d rest => exact ⟨rest.foldl concatLatitude d, rfl⟩

theorem withTrace_traceOf (tr : List Ledger) (r : GroupsRun) :
    (r.withTrace tr).traceOf = tr ++ r.traceOf := by
  cases r <;> rfl

theorem withTrace_ledOut (tr : List Ledger) (r : GroupsRun) :
    (r.withTrace tr).ledOut = r.ledOut := by
  cases r <;> rfl

theorem withTrace_isDone (tr : List Ledger) (r : GroupsRun) :
    (r.withTrace tr).isDone = r.isDone := by
  cases r <;> rfl

theorem runGroups_nil (combine : Dataset → Option Dataset → Dataset) (led : Ledger)
    (m : AcqMeta) (dout : Option Dataset) (folded : Nat) :
    runGroups combine [] led m dout folded = .done led [] m dout folded := rfl

theorem runGroups_cons_cancelled (combine : Dataset → Option Dataset → Dataset)
    (g : List ChunkOutcome) (gs : List (List ChunkOutcome)) (led : Ledger)
    (m : AcqMeta) (dout : Option Dataset) (folded : Nat) (tr : List Ledger)
    (h : collectGroup led g = .cancelled tr) :
    runGroups combine (g :: gs) led m dout folded = .cancelled tr m folded := by
  rw [runGroups, h]

theorem runGroups_cons_concatError (combine : Dataset → Option Dataset → Dataset)
    (g : List ChunkOutcome) (gs : List (List ChunkOutcome)) (led : Ledger)
    (m : AcqMeta) (dout : Option Dataset) (folded : Nat)
    (tiles : List (Dataset × AcqMeta)) (led1 : Ledger) (tr : List Ledger)
    (h : collectGroup led g = .done tiles led1 tr)
    (hcc : xr_concat (tiles.map (fun t => t.1)).reverse = none) :
    runGroups combine (g :: gs) led m dout folded =
      .concatError led1 tr (tiles.foldl (fun a t => mergeAcqMeta a t.2) m) folded := by
  rw [runGroups, h]
  show (match xr_concat (tiles.map (fun (t : Dataset × AcqMeta) => t.1)).reverse with
        | none =>
            GroupsRun.concatError led1 tr
              (tiles.foldl (fun a (t : Dataset × AcqMeta) => mergeAcqMeta a t.2) m) folded
        | some full =>
            (runGroups combine gs led1
              (tiles.foldl (fun a (t : Dataset × AcqMeta) => mergeAcqMeta a t.2) m)
              (some (combine full dout)) (folded + 1)).withTrace tr) = _
  rw [hcc]

theorem runGroups_cons_step (combine : Dataset → Option Dataset → Dataset)
    (g : List ChunkOutcome) (gs : List (List ChunkOutcome)) (led : Ledger)
    (m : AcqMeta) (dout : Option Dataset) (folded : Nat)
    (tiles : List (Dataset × AcqMeta)) (led1 : Ledger) (tr : List Ledger) (full : Dataset)
    (h : collectGroup led g = .done tiles led1 tr)
    (hcc : xr_concat (tiles.map (fun t => t.1)).reverse = some full) :
    runGroups combine (g :: gs) led m dout folded =
      (runGroups combine gs led1 (tiles.foldl (fun a t => mergeAcqMeta a t.2) m)
        (some (combine full dout)) (folded + 1)).withTrace tr := by
  rw [runGroups, h]
  show (match xr_concat (tiles.map (fun (t : Dataset × AcqMeta) => t.1)).reverse with
        | none =>
            GroupsRun.concatError led1 tr
              (tiles.foldl (fun a (t : Dataset × AcqMeta) => mergeAcqMeta a t.2) m) folded
        | some full =>
            (runGroups combine gs led1
              (tiles.foldl (fun a (t : Dataset × AcqMeta) => mergeAcqMeta a t.2) m)
              (some (combine full dout)) (folded + 1)).withTrace tr) = _
  rw [hcc]

/-- The outer loop emits exactly one consecutive block of
`scenes_processed` bumps: its trace is `snapshots led c` for some `c`
bounded by the total chunk count, its outgoing ledger (when present) is
`bump led c`, and a completed run has consumed every chunk. -/
theorem runGroups_master (combine : Dataset → Option Dataset → Dataset) :
    ∀ (gs : List (List ChunkOutcome)) (led : Ledger) (m : AcqMeta)
      (dout : Option Dataset) (folded : Nat),
      ∃ c, c ≤ (gs.map List.length).sum ∧
        (runGroups combine gs led m dout folded).traceOf = snapshots led c ∧
        (∀ l, (runGroups combine gs led m dout folded).ledOut = some l → l = bump led c) ∧
        ((runGroups combine gs led m dout folded).isDone = true →
          c = (gs.map List.length).sum) := by
  intro gs
  induction gs with
  | nil =>
    intro led m dout folded
    exact ⟨0, Nat.le_refl 0, rfl, fun l hl => by cases hl; exact (bump_zero led).symm,
      fun _ => rfl⟩
  | cons g gs ih =>
    intro led m dout folded
    cases hcg : collectGroup led g with
    | cancelled tr =>
      rw [runGroups_cons_cancelled combine g gs led m dout folded tr hcg]
      obtain ⟨k, hk, htr⟩ := collectGroup_cancelled_inv g led tr hcg
      refine ⟨k, ?_, htr, ?_, ?_⟩
      · simp only [List.map_cons, List.sum_cons]; omega
      · intro l hl; cases hl
      · intro hd; cases hd
    | done tiles led1 tr =>
      obtain ⟨hts, hl1, htr⟩ := collectGroup_done_inv g led tiles led1 tr hcg
      cases hcc : xr_concat (tiles.map (fun t => t.1)).reverse with
      | none =>
        rw [runGroups_cons_concatError combine g gs led m dout folded tiles led1 tr hcg hcc]
        refine ⟨g.length, ?_, htr, ?_, ?_⟩
        · simp only [List.map_cons, List.sum_cons]; omega
        · intro l hl
          cases hl
          exact hl1
        · intro hd; cases hd
      | some full =>
        rw [runGroups_cons_step combine g gs led m dout folded tiles led1 tr full hcg hcc]
        obtain ⟨c2, hc2, htr2, hled2, hdone2⟩ :=
          ih led1 (tiles.foldl (fun a t => mergeAcqMeta a t.2) m)
            (some (combine full dout)) (folded + 1)
        refine ⟨g.length + c2, ?_, ?_, ?_, ?_⟩
        · simp only [List.map_cons, List.sum_cons]; omega
        · rw [withTrace_traceOf, htr, htr2, hl1, snapshots_append]
        · intro l hl
          rw [withTrace_ledOut] at hl
          rw [hled2 l hl, hl1, bump_bump]
        · intro hd
          rw [withTrace_isDone] at hd
          simp only [List.map_cons, List.sum_cons, hdone2 hd]

/-- The metadata maps of the non-empty tiles of a grouped outcome list,
in dispatch order. -/
def tileMetas (gs : List (List ChunkOutcome)) : List AcqMeta :=
  (gs.map (fun g => (somePayloads g).map (fun p => p.2))).flatten

theorem tileMetas_nil : tileMetas [] = [] := rfl

theorem tileMetas_cons (g : List ChunkOutcome) (gs : List (List ChunkOutcome)) :
    tileMetas (g :: gs) = (somePayloads g).map (fun p => p.2) ++ tileMetas gs := rfl

/-- A completed outer loop merges exactly the non-empty tiles' metadata
maps, in dispatch order, into the incoming query-wide map. -/
theorem runGroups_done_meta (combine : Dataset → Option Dataset → Dataset) :
    ∀ (gs : List (List ChunkOutcome)) (led : Ledger) (m : AcqMeta)
      (dout : Option Dataset) (folded : Nat) (l2 : Ledger) (tr : List Ledger)
      (m2 : AcqMeta) (d2 : Option Dataset) (f2 : Nat),
      runGroups combine gs led m dout folded = .done l2 tr m2 d2 f2 →
      m2 = (tileMetas gs).foldl mergeAcqMeta m := by
  intro gs
  induction gs with
  | nil =>
    intro led m dout folded l2 tr m2 d2 f2 h
    rw [runGroups_nil] at h
    injection h with e1 e2 e3 e4 e5
    rw [← e3, tileMetas_nil]
    rfl
  | cons g gs ih =>
    intro led m dout folded l2 tr0 m2 d2 f2 h
    cases hcg : collectGroup led g with
    | cancelled tr =>
      rw [runGroups_cons_cancelled combine g gs led m dout folded tr hcg] at h
      cases h
    | done tiles led1 tr =>
      obtain ⟨hts, hl1, htr⟩ := collectGroup_done_inv g led tiles led1 tr hcg
      cases hcc : xr_concat (tiles.map (fun t => t.1)).reverse with
      | none =>
        rw [runGroups_cons_concatError combine g gs led m dout folded tiles led1 tr
          hcg hcc] at h
        cases h
      | some full =>
        rw [runGroups_cons_step combine g gs led m dout folded tiles led1 tr full
          hcg hcc] at h
        cases hrec : runGroups combine gs led1
            (tiles.foldl (fun a t => mergeAcqMeta a t.2) m)
            (some (combine full dout)) (folded + 1) with
        | cancelled tr2 mm ff => rw [hrec] at h; cases h
        | concatError l3 tr3 m3 f3 => rw [hrec] at h; cases h
        | done l3 tr3 m3 d3 f3 =>
          rw [hrec] at h
          injection h with e1 e2 e3 e4 e5
          have hm3 := ih led1 (tiles.foldl (fun a t => mergeAcqMeta a t.2) m)
            (some (combine full dout)) (folded + 1) l3 tr3 m3 d3 f3 hrec
          rw [← e3, hm3, hts, tileMetas_cons, List.foldl_append, List.foldl_map]

theorem collectGroup_first_cancel :
    ∀ (p : List ChunkOutcome) (led : Ledger) (rest : List ChunkOutcome),
      (∀ o ∈ p, o.isCancel = false) →
      collectGroup led (p ++ ChunkOutcome.CANCEL :: rest) =
        .cancelled (snapshots led p.length) := by
  intro p
  induction p with
  | nil => intro led rest _; rfl
  | cons o p ih =>
    intro led rest h
    cases o with
    | CANCEL => simpa [ChunkOutcome.isCancel] using h _ (List.mem_cons_self _ _)
    | result payload =>
      rw [List.cons_append, collectGroup.eq_def]
      simp only []
      rw [ih (bump led 1) rest (fun o ho => h o (List.mem_cons_of_mem _ ho))]
      show GroupCollect.cancelled (bump led 1 :: snapshots (bump led 1) p.length) = _
      rw [List.length_cons, snapshots_succ]

/-- If every group before some group resolves without cancellation and
with at least one non-empty tile, and that group's chunk results hit a
`"CANCEL"` after a cancel-free block, the whole outer loop returns the
cancelled sentinel having folded exactly the earlier groups. -/
theorem runGroups_clean_cancel (combine : Dataset → Option Dataset → Dataset) :
    ∀ (preG : List (List ChunkOutcome)) (led : Ledger) (m : AcqMeta)
      (dout : Option Dataset) (folded : Nat) (p rest : List ChunkOutcome)
      (post : List (List ChunkOutcome)),
      (∀ gg ∈ preG, (∀ o ∈ gg, o.isCancel = false) ∧ somePayloads gg ≠ []) →
      (∀ o ∈ p, o.isCancel = false) →
      ∃ tr m2,
        runGroups combine (preG ++ (p ++ ChunkOutcome.CANCEL :: rest) :: post)
            led m dout folded =
          .cancelled tr m2 (folded + preG.length) := by
  intro preG
  induction preG with
  | nil =>
    intro led m dout folded p rest post _ hp
    refine ⟨snapshots led p.length, m, ?_⟩
    rw [List.nil_append,
      runGroups_cons_cancelled combine _ post led m dout folded _
        (collectGroup_first_cancel p led rest hp)]
    exact congrArg _ (by simp)
  | cons gg preG ih =>
    intro led m dout folded p rest post hpre hp
    have h1 := hpre gg (List.mem_cons_self _ _)
    have hcg := collectGroup_no_cancel gg led h1.1
    have hrev : ((somePayloads gg).map (fun t => t.1)).reverse ≠ [] := by
      intro he
      refine h1.2 ?_
      have := List.reverse_eq_nil_iff.mp he
      exact List.map_eq_nil_iff.mp this
    obtain ⟨full, hcc⟩ := xr_concat_some _ hrev
    rw [List.cons_append, runGroups_cons_step combine gg
      (preG ++ (p ++ ChunkOutcome.CANCEL :: rest) :: post) led m dout folded
      (somePayloads gg) (bump led gg.length) (snapshots led gg.length) full hcg hcc]
    obtain ⟨tr2, m2, hrec⟩ := ih (bump led gg.length)
      ((somePayloads gg).foldl (fun a t => mergeAcqMeta a t.2) m)
      (some (combine full dout)) (folded + 1) p rest post
      (fun x hx => hpre x (List.mem_cons_of_mem _ hx)) hp
    rw [hrec]
    refine ⟨snapshots led gg.length ++ tr2, m2, ?_⟩
    show GroupsRun.cancelled (snapshots led gg.length ++ tr2) m2
      ((folded + 1) + preG.length) = _
    rw [List.length_cons]
    exact congrArg _ (by omega)

theorem rangeSplitEx : ∀ (T g : Nat), g < T →
    ∃ post, List.range T = List.range g ++ g :: post := by
  intro T
  induction T with
  | zero => intro g h; exact absurd h (Nat.not_lt_zero g)
  | succ S ih =>
    intro g h
    rcases Nat.lt_succ_iff_lt_or_eq.mp h with h2 | rfl
    · obtain ⟨post, hp⟩ := ih g h2
      exact ⟨post ++ [S], by
        rw [List.range_succ, hp, List.append_assoc, List.cons_append]⟩
    · exact ⟨[], by rw [List.range_succ]⟩

theorem sum_map_constG {α : Type} (G : Nat) :
    ∀ (l : List α), (l.map (fun _ => G)).sum = l.length * G
  | [] => by simp
  | a :: l => by
    rw [List.map_cons, List.sum_cons, sum_map_constG G l, List.length_cons, Nat.succ_mul]
    omega

theorem dispatchGroups_sum (T G : Nat) (outc : Nat → Nat → ChunkOutcome) :
    ((dispatchGroups T G outc).map List.length).sum = T * G := by
  unfold dispatchGroups
  rw [List.map_map]
  have he : (List.length ∘ fun t => (List.range G).map (fun c => outc t c)) =
      fun (_ : Nat) => G := by
    funext t
    simp
  rw [he, sum_map_constG, List.length_range]

/-! ## Acquisition-metadata accounting lemmas -/

theorem entrySum_nil (d : Nat) : entrySum d [] = 0 := rfl

theorem entrySum_cons (d : Nat) (e : Nat × Nat) (es : AcqMeta) :
    entrySum d (e :: es) = (if e.1 = d then e.2 else 0) + entrySum d es := by
  by_cases h : e.1 = d <;> simp [entrySum, h]

theorem lookupDate_map_update_ne (t px d : Nat) (hne : d ≠ t) :
    ∀ (acc : AcqMeta),
      lookupDate (acc.map (fun e => if e.1 = t then (e.1, e.2 + px) else e)) d =
        lookupDate acc d
  | [] => rfl
  | (k, v) :: es => by
    by_cases he : k = t
    · subst he
      have hkd : (k = d) = False := by
        simp only [eq_iff_iff, iff_false]
        intro hkd; exact hne hkd.symm
      simp only [List.map_cons, lookupDate, eq_self_iff_true, if_true, hkd, if_false]
      exact lookupDate_map_update_ne k px d hne es
    · by_cases hkd : k = d
      · simp only [List.map_cons, lookupDate, if_neg he, if_pos hkd]
      · simp only [List.map_cons, lookupDate, if_neg he, if_neg hkd]
        exact lookupDate_map_update_ne t px d hne es

theorem lookupDate_map_update_eq (t px : Nat) :
    ∀ (acc : AcqMeta), (lookupDate acc t).isSome = true →
      (lookupDate (acc.map (fun e => if e.1 = t then (e.1, e.2 + px) else e)) t).getD 0 =
        (lookupDate acc t).getD 0 + px
  | [], hs => by simp [lookupDate] at hs
  | (k, v) :: es, hs => by
    by_cases he : k = t
    · simp only [List.map_cons, lookupDate, if_pos he]
      rfl
    · simp only [List.map_cons, lookupDate, if_neg he]
      simp only [lookupDate, if_neg he] at hs
      exact lookupDate_map_update_eq t px es hs

theorem lookupDate_append_single (t px d : Nat) :
    ∀ (acc : AcqMeta),
      lookupDate (acc ++ [(t, px)]) d =
        match lookupDate acc d with
        | some v => some v
        | none => if t = d then some px else none
  | [] => rfl
  | e :: es => by
    rw [List.cons_append, lookupDate, lookupDate]
    by_cases h : e.1 = d
    · rw [if_pos h, if_pos h]
    · rw [if_neg h, if_neg h]
      exact lookupDate_append_single t px d es

theorem dateCount_addAcqDate (acc : AcqMeta) (t px d : Nat) :
    dateCount (addAcqDate acc t px) d = dateCount acc d + (if t = d then px else 0) := by
  unfold addAcqDate
  by_cases hs : (lookupDate acc t).isSome
  · rw [if_pos hs]
    by_cases hd : d = t
    · subst hd
      rw [if_pos rfl]
      exact lookupDate_map_update_eq d px acc hs
    · unfold dateCount
      rw [lookupDate_map_update_ne t px d hd acc,
        if_neg (fun he => hd he.symm), Nat.add_zero]
  · rw [if_neg hs]
    unfold dateCount
    rw [lookupDate_append_single t px d acc]
    have hnone : lookupDate acc t = none := Option.not_isSome_iff_eq_none.mp hs
    cases hval : lookupDate acc d with
    | none =>
      by_cases hd : t = d
      · simp [hd]
      · simp [hd]
    | some v =>
      have hd : t ≠ d := by
        intro he
        rw [he, hval] at hnone
        cases hnone
      simp [hd]

theorem dateCount_addAcqDate_le (acc : AcqMeta) (t px d : Nat) :
    dateCount acc d ≤ dateCount (addAcqDate acc t px) d := by
  rw [dateCount_addAcqDate]
  omega

theorem dateCount_fold_add (d : Nat) :
    ∀ (es : List (Nat × Nat)) (acc : AcqMeta),
      dateCount (es.foldl (fun a e => addAcqDate a e.1 e.2) acc) d =
        dateCount acc d + entrySum d es
  | [], acc => by rw [List.foldl_nil, entrySum_nil, Nat.add_zero]
  | e :: es, acc => by
    rw [List.foldl_cons, dateCount_fold_add d es, dateCount_addAcqDate, entrySum_cons]
    have : (if e.1 = d then e.2 else 0) = (if e.1 = d then e.2 else 0) := rfl
    omega

theorem dateCount_merge (acc tile : AcqMeta) (d : Nat) :
    dateCount (mergeAcqMeta acc tile) d = dateCount acc d + entrySum d tile :=
  dateCount_fold_add d tile acc

theorem dateCount_fold_merge (d : Nat) :
    ∀ (ms : List AcqMeta) (acc : AcqMeta),
      dateCount (ms.foldl mergeAcqMeta acc) d =
        dateCount acc d + (ms.map (entrySum d)).sum
  | [], acc => by simp
  | m :: ms, acc => by
    rw [List.foldl_cons, dateCount_fold_merge d ms, dateCount_merge,
      List.map_cons, List.sum_cons]
    omega

/-! ## Orchestrator branch lemmas -/

/-- The two ledger snapshots `error_with_message` emits from `led`. -/
def errWith (led : Ledger) (msg : String) : List Ledger :=
  [{ led with status := statusError },
   { led with status := statusError, result_path := msg }]

/-- The three ledger snapshots of the success path (result paths, status
OK, `total_scenes = len(acquisitions)`). -/
def okTail (led : Ledger) (qid : String) (n : Nat) : List Ledger :=
  [{ led with result_path := base_result_path ++ qid ++ ".png" },
   { led with status := statusOk, result_path := base_result_path ++ qid ++ ".png" },
   { led with
      status := statusOk
      result_path := base_result_path ++ qid ++ ".png"
      total_scenes := n }]

theorem create_repeat (qid : String) (qc : Nat) (re sm : Bool) (acq : List Nat)
    (trs : List (List Nat)) (lrc : Nat) (combine : Dataset → Option Dataset → Dataset)
    (outc : Nat → Nat → ChunkOutcome) (h : 1 < qc) :
    create_cloudfree_mosaic qid qc re sm acq trs lrc combine outc =
      { outcome := .repeatQuery re, trace := [], scratchExists := false,
        recordsDeleted := false, queryComplete := re, dispatched := 0,
        foldedGroups := 0, finalAcqMeta := [] } := by
  simp [create_cloudfree_mosaic, h]

theorem create_no_metadata (qid : String) (qc : Nat) (re : Bool) (acq : List Nat)
    (trs : List (List Nat)) (lrc : Nat) (combine : Dataset → Option Dataset → Dataset)
    (outc : Nat → Nat → ChunkOutcome) (hq : ¬ 1 < qc) :
    create_cloudfree_mosaic qid qc re false acq trs lrc combine outc =
      { outcome := .errored genericErrorMsg,
        trace := initialLedger :: errWith initialLedger genericErrorMsg,
        scratchExists := false, recordsDeleted := false, queryComplete := false,
        dispatched := 0, foldedGroups := 0, finalAcqMeta := [] } := by
  simp [create_cloudfree_mosaic, hq, errWith, error_with_message]

theorem create_no_acq (qid : String) (qc : Nat) (re : Bool) (acq : List Nat)
    (trs : List (List Nat)) (lrc : Nat) (combine : Dataset → Option Dataset → Dataset)
    (outc : Nat → Nat → ChunkOutcome) (hq : ¬ 1 < qc) (ha : acq.length < 1) :
    create_cloudfree_mosaic qid qc re true acq trs lrc combine outc =
      { outcome := .errored noAcqMsg,
        trace := initialLedger :: errWith initialLedger noAcqMsg,
        scratchExists := false, recordsDeleted := false, queryComplete := false,
        dispatched := 0, foldedGroups := 0, finalAcqMeta := [] } := by
  simp [create_cloudfree_mosaic, hq, ha, errWith, error_with_message]

theorem create_main_cancelled (qid : String) (qc : Nat) (re : Bool) (acq : List Nat)
    (trs : List (List Nat)) (lrc : Nat) (combine : Dataset → Option Dataset → Dataset)
    (outc : Nat → Nat → ChunkOutcome) (tr : List Ledger) (m : AcqMeta) (f : Nat)
    (hq : ¬ 1 < qc) (ha : ¬ acq.length < 1)
    (hrun : runGroups combine (dispatchGroups trs.length lrc outc)
        (planLedger (trs.length * lrc)) [] none 0 = .cancelled tr m f) :
    create_cloudfree_mosaic qid qc re true acq trs lrc combine outc =
      { outcome := .cancelled,
        trace := initialLedger :: planLedger (trs.length * lrc) :: tr,
        scratchExists := false, recordsDeleted := true, queryComplete := false,
        dispatched := trs.length * lrc, foldedGroups := f, finalAcqMeta := m } := by
  simp [create_cloudfree_mosaic, hq, ha, hrun, errWith, okTail, error_with_message]

theorem create_main_concatError (qid : String) (qc : Nat) (re : Bool) (acq : List Nat)
    (trs : List (List Nat)) (lrc : Nat) (combine : Dataset → Option Dataset → Dataset)
    (outc : Nat → Nat → ChunkOutcome) (led : Ledger) (tr : List Ledger) (m : AcqMeta)
    (f : Nat)
    (hq : ¬ 1 < qc) (ha : ¬ acq.length < 1)
    (hrun : runGroups combine (dispatchGroups trs.length lrc outc)
        (planLedger (trs.length * lrc)) [] none 0 = .concatError led tr m f) :
    create_cloudfree_mosaic qid qc re true acq trs lrc combine outc =
      { outcome := .errored genericErrorMsg,
        trace := initialLedger :: planLedger (trs.length * lrc) ::
          (tr ++ errWith led genericErrorMsg),
        scratchExists := false, recordsDeleted := false, queryComplete := false,
        dispatched := trs.length * lrc, foldedGroups := f, finalAcqMeta := m } := by
  simp [create_cloudfree_mosaic, hq, ha, hrun, errWith, okTail, error_with_message]

theorem create_main_doutNone (qid : String) (qc : Nat) (re : Bool) (acq : List Nat)
    (trs : List (List Nat)) (lrc : Nat) (combine : Dataset → Option Dataset → Dataset)
    (outc : Nat → Nat → ChunkOutcome) (led : Ledger) (tr : List Ledger) (m : AcqMeta)
    (f : Nat)
    (hq : ¬ 1 < qc) (ha : ¬ acq.length < 1)
    (hrun : runGroups combine (dispatchGroups trs.length lrc outc)
        (planLedger (trs.length * lrc)) [] none 0 = .done led tr m none f) :
    create_cloudfree_mosaic qid qc re true acq trs lrc combine outc =
      { outcome := .errored genericErrorMsg,
        trace := initialLedger :: planLedger (trs.length * lrc) ::
          (tr ++ errWith led genericErrorMsg),
        scratchExists := false, recordsDeleted := false, queryComplete := false,
        dispatched := trs.length * lrc, foldedGroups := f, finalAcqMeta := m } := by
  simp [create_cloudfree_mosaic, hq, ha, hrun, errWith, okTail, error_with_message]

theorem create_main_ok (qid : String) (qc : Nat) (re : Bool) (acq : List Nat)
    (trs : List (List Nat)) (lrc : Nat) (combine : Dataset → Option Dataset → Dataset)
    (outc : Nat → Nat → ChunkOutcome) (led : Ledger) (tr : List Ledger) (m : AcqMeta)
    (dset : Dataset) (f : Nat)
    (hq : ¬ 1 < qc) (ha : ¬ acq.length < 1)
    (hrun : runGroups combine (dispatchGroups trs.length lrc outc)
        (planLedger (trs.length * lrc)) [] none 0 = .done led tr m (some dset) f) :
    create_cloudfree_mosaic qid qc re true acq trs lrc combine outc =
      { outcome := .ok acq.length,
        trace := initialLedger :: planLedger (trs.length * lrc) ::
          (tr ++ okTail led qid acq.length),
        scratchExists := false, recordsDeleted := false, queryComplete := true,
        dispatched := trs.length * lrc, foldedGroups := f, finalAcqMeta := m } := by
  simp [create_cloudfree_mosaic, hq, ha, hrun, errWith, okTail, error_with_message]

/-! ## Progress-trace helpers -/

/-- One observation step of the progress counter: unchanged or
incremented by exactly one. -/
def stepRel (a b : Ledger) : Prop :=
  b.scenes_processed = a.scenes_processed ∨ b.scenes_processed = a.scenes_processed + 1

instance (a b : Ledger) : Decidable (stepRel a b) :=
  inferInstanceAs (Decidable (b.scenes_processed = a.scenes_processed ∨
    b.scenes_processed = a.scenes_processed + 1))

theorem chain_const : ∀ (t : List Ledger) (x : Ledger) (v : Nat),
    x.scenes_processed = v → (∀ l ∈ t, l.scenes_processed = v) →
    List.Chain' stepRel (x :: t)
  | [], x, _, _, _ => List.chain'_singleton x
  | y :: t, x, v, hx, ht => by
    rw [List.chain'_cons]
    refine ⟨Or.inl ?_, chain_const t y v (ht y (List.mem_cons_self y t))
      (fun l hl => ht l (List.mem_cons_of_mem _ hl))⟩
    rw [ht y (List.mem_cons_self y t), hx]

theorem chain_snap : ∀ (c : Nat) (led : Ledger) (tail : List Ledger),
    (∀ l ∈ tail, l.scenes_processed = led.scenes_processed + c) →
    List.Chain' stepRel (led :: (snapshots led c ++ tail))
  | 0, led, tail, h => by
    rw [snapshots_zero, List.nil_append]
    exact chain_const tail led led.scenes_processed rfl
      (fun l hl => by rw [h l hl, Nat.add_zero])
  | c + 1, led, tail, h => by
    rw [snapshots_succ, List.cons_append, List.chain'_cons]
    refine ⟨Or.inr (bump_scenes led 1), ?_⟩
    refine chain_snap c (bump led 1) tail (fun l hl => ?_)
    rw [h l hl, bump_scenes]
    omega

theorem chain_trace (led1 : Ledger) (c : Nat) (h0 : led1.scenes_processed = 0)
    (tail : List Ledger) (htail : ∀ l ∈ tail, l.scenes_processed = c) :
    List.Chain' stepRel (initialLedger :: led1 :: (snapshots led1 c ++ tail)) := by
  rw [List.chain'_cons]
  refine ⟨Or.inl (by rw [h0]; rfl), ?_⟩
  refine chain_snap c led1 tail (fun l hl => ?_)
  rw [htail l hl, h0]
  omega

theorem scenes_bound (led1 : Ledger) (c nW : Nat) (hc : c ≤ nW)
    (h0 : led1.scenes_processed = 0) (tail : List Ledger)
    (htail : ∀ l ∈ tail, l.scenes_processed = c) :
    ∀ l ∈ initialLedger :: led1 :: (snapshots led1 c ++ tail),
      l.scenes_processed ≤ nW := by
  intro l hl
  rcases List.mem_cons.mp hl with rfl | hl
  · exact Nat.zero_le nW
  rcases List.mem_cons.mp hl with rfl | hl
  · rw [h0]; exact Nat.zero_le nW
  rcases List.mem_append.mp hl with hs | ht
  · obtain ⟨i, hi, rfl⟩ := mem_snapshots led1 c l hs
    rw [bump_scenes, h0]
    omega
  · rw [htail l ht]
    exact hc

theorem errWith_scenes (led : Ledger) (msg : String) :
    ∀ l ∈ errWith led msg, l.scenes_processed = led.scenes_processed := by
  intro l hl
  rcases List.mem_cons.mp hl with rfl | hl
  · rfl
  rcases List.mem_cons.mp hl with rfl | hl
  · rfl
  · cases hl

theorem okTail_scenes (led : Ledger) (qid : String) (n : Nat) :
    ∀ l ∈ okTail led qid n, l.scenes_processed = led.scenes_processed := by
  intro l hl
  rcases List.mem_cons.mp hl with rfl | hl
  · rfl
  rcases List.mem_cons.mp hl with rfl | hl
  · rfl
  rcases List.mem_cons.mp hl with rfl | hl
  · rfl
  · cases hl

theorem getLast_cons_cons_append (x y : Ledger) (l tail : List Ledger)
    (h : tail ≠ []) :
    (x :: y :: (l ++ tail)).getLast? = tail.getLast? := by
  rw [show x :: y :: (l ++ tail) = (x :: y :: l) ++ tail from rfl,
    List.getLast?_append_of_ne_nil _ h]

/-! ## Claim C8: progress counter behavior -/

/-- C8: across any run, the trace's first snapshot has
`scenes_processed = 0`, consecutive snapshots differ by 0 or +1, every
snapshot is bounded by `|TimeGroups| * |GeoChunks|`, and a run that ends
OK has consumed exactly that many work units. -/
theorem claim_C8_progress (qid : String) (qc : Nat) (re sm : Bool) (acq : List Nat)
    (trs : List (List Nat)) (lrc : Nat) (combine : Dataset → Option Dataset → Dataset)
    (outc : Nat → Nat → ChunkOutcome) :
    (∀ l, (create_cloudfree_mosaic qid qc re sm acq trs lrc combine outc).trace.head? =
        some l → l.scenes_processed = 0) ∧
    List.Chain' stepRel
      (create_cloudfree_mosaic qid qc re sm acq trs lrc combine outc).trace ∧
    (∀ l ∈ (create_cloudfree_mosaic qid qc re sm acq trs lrc combine outc).trace,
      l.scenes_processed ≤ trs.length * lrc) ∧
    (∀ n l, (create_cloudfree_mosaic qid qc re sm acq trs lrc combine outc).outcome =
        RunOutcome.ok n →
      (create_cloudfree_mosaic qid qc re sm acq trs lrc combine outc).trace.getLast? =
        some l →
      l.scenes_processed = trs.length * lrc) := by
  by_cases hq : 1 < qc
  · rw [create_repeat qid qc re sm acq trs lrc combine outc hq]
    refine ⟨(fun l h => by cases h), List.chain'_nil, (fun l hl => by cases hl),
      (fun n l hn => by cases hn)⟩
  cases hsm : sm with
  | false =>
    rw [create_no_metadata qid qc re acq trs lrc combine outc hq]
    refine ⟨?_, ?_, ?_, ?_⟩
    · intro l h
      rw [List.head?_cons] at h
      cases h
      rfl
    · exact chain_const _ initialLedger 0 rfl
        (fun l hl => errWith_scenes initialLedger genericErrorMsg l hl)
    · intro l hl
      have h0 : l.scenes_processed = 0 := by
        rcases List.mem_cons.mp hl with rfl | hl
        · rfl
        · exact errWith_scenes initialLedger genericErrorMsg l hl
      rw [h0]
      exact Nat.zero_le _
    · intro n l hn
      cases hn
  | true =>
    by_cases ha : acq.length < 1
    · rw [create_no_acq qid qc re acq trs lrc combine outc hq ha]
      refine ⟨?_, ?_, ?_, ?_⟩
      · intro l h
        rw [List.head?_cons] at h
        cases h
        rfl
      · exact chain_const _ initialLedger 0 rfl
          (fun l hl => errWith_scenes initialLedger noAcqMsg l hl)
      · intro l hl
        have h0 : l.scenes_processed = 0 := by
          rcases List.mem_cons.mp hl with rfl | hl
          · rfl
          · exact errWith_scenes initialLedger noAcqMsg l hl
        rw [h0]
        exact Nat.zero_le _
      · intro n l hn
        cases hn
    · obtain ⟨c, hc, htr, hled, hdone⟩ := runGroups_master combine
        (dispatchGroups trs.length lrc outc) (planLedger (trs.length * lrc)) [] none 0
      rw [dispatchGroups_sum trs.length lrc outc] at hc hdone
      have h0 : (planLedger (trs.length * lrc)).scenes_processed = 0 := rfl
      cases hrun : runGroups combine (dispatchGroups trs.length lrc outc)
          (planLedger (trs.length * lrc)) [] none 0 with
      | cancelled tr m f =>
        rw [hrun] at htr
        simp only [GroupsRun.traceOf] at htr
        rw [create_main_cancelled qid qc re acq trs lrc combine outc tr m f hq ha hrun,
          htr]
        refine ⟨?_, ?_, ?_, ?_⟩
        · intro l h
          rw [List.head?_cons] at h
          cases h
          rfl
        · have := chain_trace (planLedger (trs.length * lrc)) c h0 [] (fun l hl => by cases hl)
          rwa [List.append_nil] at this
        · have := scenes_bound (planLedger (trs.length * lrc)) c (trs.length * lrc) hc h0
            [] (fun l hl => by cases hl)
          rwa [List.append_nil] at this
        · intro n l hn
          cases hn
      | concatError led tr m f =>
        rw [hrun] at htr hled
        simp only [GroupsRun.traceOf] at htr
        simp only [GroupsRun.ledOut] at hled
        have hbl : led = bump (planLedger (trs.length * lrc)) c := hled led rfl
        have htailsc : ∀ l ∈ errWith led genericErrorMsg, l.scenes_processed = c := by
          intro l hl
          rw [errWith_scenes led genericErrorMsg l hl, hbl, bump_scenes, h0]
          omega
        rw [create_main_concatError qid qc re acq trs lrc combine outc led tr m f
          hq ha hrun, htr]
        refine ⟨?_, ?_, ?_, ?_⟩
        · intro l h
          rw [List.head?_cons] at h
          cases h
          rfl
        · exact chain_trace (planLedger (trs.length * lrc)) c h0 _ htailsc
        · exact scenes_bound (planLedger (trs.length * lrc)) c (trs.length * lrc) hc h0
            _ htailsc
        · intro n l hn
          cases hn
      | done led tr m dout f =>
        rw [hrun] at htr hled hdone
        simp only [GroupsRun.traceOf] at htr
        simp only [GroupsRun.ledOut] at hled
        simp only [GroupsRun.isDone] at hdone
        have hbl : led = bump (planLedger (trs.length * lrc)) c := hled led rfl
        cases dout with
        | none =>
          have htailsc : ∀ l ∈ errWith led genericErrorMsg, l.scenes_processed = c := by
            intro l hl
            rw [errWith_scenes led genericErrorMsg l hl, hbl, bump_scenes, h0]
            omega
          rw [create_main_doutNone qid qc re acq trs lrc combine outc led tr m f
            hq ha hrun, htr]
          refine ⟨?_, ?_, ?_, ?_⟩
          · intro l h
            rw [List.head?_cons] at h
            cases h
            rfl
          · exact chain_trace (planLedger (trs.length * lrc)) c h0 _ htailsc
          · exact scenes_bound (planLedger (trs.length * lrc)) c (trs.length * lrc) hc h0
              _ htailsc
          · intro n l hn
            cases hn
        | some dset =>
          have htailsc : ∀ l ∈ okTail led qid acq.length, l.scenes_processed = c := by
            intro l hl
            rw [okTail_scenes led qid acq.length l hl, hbl, bump_scenes, h0]
            omega
          rw [create_main_ok qid qc re acq trs lrc combine outc led tr m dset f
            hq ha hrun, htr]
          refine ⟨?_, ?_, ?_, ?_⟩
          · intro l h
            rw [List.head?_cons] at h
            cases h
            rfl
          · exact chain_trace (planLedger (trs.length * lrc)) c h0 _ htailsc
          · exact scenes_bound (planLedger (trs.length * lrc)) c (trs.length * lrc) hc h0
              _ htailsc
          · intro n l hn hlast
            rw [getLast_cons_cons_append _ _ _ _ (by simp [okTail])] at hlast
            have hlc : l.scenes_processed = c := by
              have hmem : l ∈ okTail led qid acq.length := by
                have := List.mem_of_mem_getLast? (hlast ▸ rfl : l ∈ (okTail led qid acq.length).getLast?)
                exact this
              exact htailsc l hmem
            rw [hlc, hdone trivial]

/-- Chunk oracle whose single chunk resolves with a tile. -/
def okOutcome : Nat → Nat → ChunkOutcome :=
  fun _ _ => .result (some (emptyRaster, [(0, 3)]))

/-- Witness for C8: a one-group one-chunk run ends OK with the counter at
exactly `1 = |TimeGroups| * |GeoChunks|`. -/
theorem claim_C8_witness :
    (create_cloudfree_mosaic "q" 1 false true [0, 1] [[0, 1]] 1 fill_nodata
      okOutcome).outcome = RunOutcome.ok 2 ∧
    (create_cloudfree_mosaic "q" 1 false true [0, 1] [[0, 1]] 1 fill_nodata
      okOutcome).trace.getLast? =
      some { status := statusOk, scenes_processed := 1, total_scenes := 2,
             result_path := base_result_path ++ "q" ++ ".png" } ∧
    ({ status := statusOk, scenes_processed := 1, total_scenes := 2,
       result_path := base_result_path ++ "q" ++ ".png" } : Ledger).scenes_processed = 1 :=
  ⟨by decide, by decide,
    (claim_C8_progress "q" 1 false true [0, 1] [[0, 1]] 1 fill_nodata okOutcome).2.2.2 2 _
      (by decide) (by decide)⟩

/-! ## Claim C1: the total work-unit count -/

theorem snapshots_total (led : Ledger) (c : Nat) :
    ∀ l ∈ snapshots led c, l.total_scenes = led.total_scenes := by
  intro l hl
  obtain ⟨i, _, rfl⟩ := mem_snapshots led c l hl
  rfl

theorem snapshots_status (led : Ledger) (c : Nat) :
    ∀ l ∈ snapshots led c, l.status = led.status := by
  intro l hl
  obtain ⟨i, _, rfl⟩ := mem_snapshots led c l hl
  rfl

theorem errWith_total (led : Ledger) (msg : String) :
    ∀ l ∈ errWith led msg, l.total_scenes = led.total_scenes := by
  intro l hl
  rcases List.mem_cons.mp hl with rfl | hl
  · rfl
  rcases List.mem_cons.mp hl with rfl | hl
  · rfl
  · cases hl

/-- C1 amended: the total work-unit count is set to
`|TimeGroups| * |GeoChunks|` right after planning (the first ledger state
after the initial one), never changes on the CANCELLED or ERROR terminal
paths, and on the OK path keeps that value until the final save, which
reassigns it to the acquisition count. -/
theorem claim_C1_total_work_units (qid : String) (qc : Nat) (re : Bool)
    (acq : List Nat) (trs : List (List Nat)) (lrc : Nat)
    (combine : Dataset → Option Dataset → Dataset) (outc : Nat → Nat → ChunkOutcome)
    (hq : ¬ 1 < qc) (ha : ¬ acq.length < 1) :
    ((create_cloudfree_mosaic qid qc re true acq trs lrc combine outc).trace.drop 1).head? =
      some (planLedger (trs.length * lrc)) ∧
    ((∀ n, (create_cloudfree_mosaic qid qc re true acq trs lrc combine outc).outcome ≠
        RunOutcome.ok n) →
      ∀ l ∈ (create_cloudfree_mosaic qid qc re true acq trs lrc combine outc).trace.drop 1,
        l.total_scenes = trs.length * lrc) ∧
    (∀ n, (create_cloudfree_mosaic qid qc re true acq trs lrc combine outc).outcome =
        RunOutcome.ok n →
      (∀ l ∈ ((create_cloudfree_mosaic qid qc re true acq trs lrc combine
          outc).trace.drop 1).dropLast,
        l.total_scenes = trs.length * lrc) ∧
      (∀ l, (create_cloudfree_mosaic qid qc re true acq trs lrc combine
          outc).trace.getLast? = some l →
        l.total_scenes = acq.length)) := by
  obtain ⟨c, hc, htr, hled, hdone⟩ := runGroups_master combine
    (dispatchGroups trs.length lrc outc) (planLedger (trs.length * lrc)) [] none 0
  have hpt : (planLedger (trs.length * lrc)).total_scenes = trs.length * lrc := rfl
  cases hrun : runGroups combine (dispatchGroups trs.length lrc outc)
      (planLedger (trs.length * lrc)) [] none 0 with
  | cancelled tr m f =>
    rw [hrun] at htr
    simp only [GroupsRun.traceOf] at htr
    rw [create_main_cancelled qid qc re acq trs lrc combine outc tr m f hq ha hrun, htr]
    refine ⟨rfl, ?_, ?_⟩
    · intro _ l hl
      rcases List.mem_cons.mp hl with rfl | hl
      · rfl
      · rw [snapshots_total _ c l hl, hpt]
    · intro n hn
      cases hn
  | concatError led tr m f =>
    rw [hrun] at htr hled
    simp only [GroupsRun.traceOf] at htr
    simp only [GroupsRun.ledOut] at hled
    have hbl : led = bump (planLedger (trs.length * lrc)) c := hled led rfl
    rw [create_main_concatError qid qc re acq trs lrc combine outc led tr m f
      hq ha hrun, htr]
    refine ⟨rfl, ?_, ?_⟩
    · intro _ l hl
      rcases List.mem_cons.mp hl with rfl | hl
      · rfl
      rcases List.mem_append.mp hl with hs | ht
      · rw [snapshots_total _ c l hs, hpt]
      · rw [errWith_total led genericErrorMsg l ht, hbl, bump_total, hpt]
    · intro n hn
      cases hn
  | done led tr m dout f =>
    rw [hrun] at htr hled
    simp only [GroupsRun.traceOf] at htr
    simp only [GroupsRun.ledOut] at hled
    have hbl : led = bump (planLedger (trs.length * lrc)) c := hled led rfl
    cases dout with
    | none =>
      rw [create_main_doutNone qid qc re acq trs lrc combine outc led tr m f
        hq ha hrun, htr]
      refine ⟨rfl, ?_, ?_⟩
      · intro _ l hl
        rcases List.mem_cons.mp hl with rfl | hl
        · rfl
        rcases List.mem_append.mp hl with hs | ht
        · rw [snapshots_total _ c l hs, hpt]
        · rw [errWith_total led genericErrorMsg l ht, hbl, bump_total, hpt]
      · intro n hn
        cases hn
    | some dset =>
      rw [create_main_ok qid qc re acq trs lrc combine outc led tr m dset f
        hq ha hrun, htr]
      refine ⟨rfl, ?_, ?_⟩
      · intro hne _ _
        exact absurd rfl (hne acq.length)
      · intro n _
        constructor
        · intro l hl
          have hsplit : planLedger (trs.length * lrc) ::
              (snapshots (planLedger (trs.length * lrc)) c ++ okTail led qid acq.length) =
              (planLedger (trs.length * lrc) ::
                (snapshots (planLedger (trs.length * lrc)) c ++
                  [{ led with result_path := base_result_path ++ qid ++ ".png" },
                   { led with
                      status := statusOk
                      result_path := base_result_path ++ qid ++ ".png" }])) ++
              [{ led with
                  status := statusOk
                  result_path := base_result_path ++ qid ++ ".png"
                  total_scenes := acq.length }] := by
            simp [okTail]
          rw [List.drop_succ_cons, List.drop_zero, hsplit, List.dropLast_concat] at hl
          rcases List.mem_cons.mp hl with rfl | hl
          · rfl
          rcases List.mem_append.mp hl with hs | ht
          · rw [snapshots_total _ c l hs, hpt]
          rcases List.mem_cons.mp ht with rfl | ht
          · rw [show ({ led with result_path := base_result_path ++ qid ++ ".png" } :
                Ledger).total_scenes = led.total_scenes from rfl, hbl, bump_total, hpt]
          rcases List.mem_cons.mp ht with rfl | ht
          · rw [show ({ led with
                status := statusOk
                result_path := base_result_path ++ qid ++ ".png" } :
                Ledger).total_scenes = led.total_scenes from rfl, hbl, bump_total, hpt]
          · cases ht
        · intro l hlast
          rw [getLast_cons_cons_append _ _ _ _ (by simp [okTail])] at hlast
          have hok : (okTail led qid acq.length).getLast? =
              some { led with
                status := statusOk
                result_path := base_result_path ++ qid ++ ".png"
                total_scenes := acq.length } := rfl
          rw [hok] at hlast
          cases hlast
          rfl

/-- C1 as stated is false: in a successful run with one time group, one
geo chunk and two acquisitions, the ledger's total is 1 before dispatch
but the OK finalization reassigns it to 2. -/
theorem claim_C1_counterexample :
    (create_cloudfree_mosaic "q" 1 false true [0, 1] [[0, 1]] 1 fill_nodata
      okOutcome).outcome = RunOutcome.ok 2 ∧
    ((create_cloudfree_mosaic "q" 1 false true [0, 1] [[0, 1]] 1 fill_nodata
      okOutcome).trace.drop 1).head? = some (planLedger 1) ∧
    (create_cloudfree_mosaic "q" 1 false true [0, 1] [[0, 1]] 1 fill_nodata
      okOutcome).trace.getLast? =
      some { status := statusOk, scenes_processed := 1, total_scenes := 2,
             result_path := base_result_path ++ "q" ++ ".png" } := by
  decide

/-- Witness for the amended C1 at a concrete successful run. -/
theorem claim_C1_witness :
    ((create_cloudfree_mosaic "q" 1 false true [0, 1] [[0, 1]] 1 fill_nodata
      okOutcome).trace.drop 1).head? = some (planLedger 1) ∧
    (planLedger 1).total_scenes = 1 ∧
    ({ status := statusOk, scenes_processed := 1, total_scenes := 2,
       result_path := base_result_path ++ "q" ++ ".png" } : Ledger).total_scenes = 2 := by
  have h := claim_C1_total_work_units "q" 1 false [0, 1] [[0, 1]] 1 fill_nodata okOutcome
    (by decide) (by decide)
  refine ⟨h.1, rfl, ?_⟩
  exact (h.2.2 2 (by decide)).2 _ (by decide)

/-! ## Claim C2: the all-empty-chunks run -/

/-- Chunk oracle all of whose chunks come back empty (`[None, None]`). -/
def emptyOutcome : Nat → Nat → ChunkOutcome := fun _ _ => .result none

/-- C2 as stated is false: with every chunk empty, the run ends with
status ERROR but carries the generic unhandled-exception message, not the
specific no-acquisitions message. -/
theorem claim_C2_counterexample :
    (create_cloudfree_mosaic "q" 1 false true [0] [[0]] 1 fill_nodata
      emptyOutcome).outcome = RunOutcome.errored genericErrorMsg ∧
    genericErrorMsg ≠ noAcqMsg := by
  decide

/-- C2 amended: if every chunk worker returns Empty, the first group's
spatial concatenation receives an empty tile list and raises, so the run
terminates through the generic unhandled-exception path: ledger status
ERROR with the generic message, not the specific no-data message. -/
theorem claim_C2_all_empty (qid : String) (qc : Nat) (re : Bool) (acq : List Nat)
    (trs : List (List Nat)) (lrc : Nat) (combine : Dataset → Option Dataset → Dataset)
    (outc : Nat → Nat → ChunkOutcome)
    (hq : ¬ 1 < qc) (ha : ¬ acq.length < 1) (hT : 0 < trs.length)
    (hempty : ∀ t c, outc t c = ChunkOutcome.result none) :
    (create_cloudfree_mosaic qid qc re true acq trs lrc combine outc).outcome =
      RunOutcome.errored genericErrorMsg ∧
    (∀ l, (create_cloudfree_mosaic qid qc re true acq trs lrc combine
        outc).trace.getLast? = some l →
      l.status = statusError ∧ l.result_path = genericErrorMsg) ∧
    genericErrorMsg ≠ noAcqMsg := by
  obtain ⟨T1, hT1⟩ : ∃ T1, trs.length = T1 + 1 := ⟨trs.length - 1, by omega⟩
  have hgroups : dispatchGroups trs.length lrc outc =
      ((List.range lrc).map (fun c => outc 0 c)) ::
        (((List.range T1).map Nat.succ).map
          (fun t => (List.range lrc).map (fun c => outc t c))) := by
    unfold dispatchGroups
    rw [hT1, List.range_succ_eq_map, List.map_cons]
  have hnc : ∀ o ∈ (List.range lrc).map (fun c => outc 0 c), o.isCancel = false := by
    intro o ho
    obtain ⟨cc, _, rfl⟩ := List.mem_map.mp ho
    rw [hempty 0 cc]
    rfl
  have hpay : somePayloads ((List.range lrc).map (fun c => outc 0 c)) = [] := by
    apply somePayloads_all_empty
    intro o ho
    obtain ⟨cc, _, rfl⟩ := List.mem_map.mp ho
    exact hempty 0 cc
  have hcg := collectGroup_no_cancel ((List.range lrc).map (fun c => outc 0 c))
    (planLedger (trs.length * lrc)) hnc
  rw [hpay] at hcg
  have hrun : runGroups combine (dispatchGroups trs.length lrc outc)
      (planLedger (trs.length * lrc)) [] none 0 =
      GroupsRun.concatError
        (bump (planLedger (trs.length * lrc))
          ((List.range lrc).map (fun c => outc 0 c)).length)
        (snapshots (planLedger (trs.length * lrc))
          ((List.range lrc).map (fun c => outc 0 c)).length)
        [] 0 := by
    rw [hgroups]
    have h2 := runGroups_cons_concatError combine
      ((List.range lrc).map (fun c => outc 0 c))
      (((List.range T1).map Nat.succ).map
        (fun t => (List.range lrc).map (fun c => outc t c)))
      (planLedger (trs.length * lrc)) [] none 0 []
      (bump (planLedger (trs.length * lrc))
        ((List.range lrc).map (fun c => outc 0 c)).length)
      (snapshots (planLedger (trs.length * lrc))
        ((List.range lrc).map (fun c => outc 0 c)).length)
      hcg rfl
    simpa using h2
  rw [create_main_concatError qid qc re acq trs lrc combine outc _ _ _ _ hq ha hrun]
  refine ⟨rfl, ?_, by decide⟩
  intro l hlast
  rw [getLast_cons_cons_append _ _ _ _ (by simp [errWith])] at hlast
  have herr : (errWith (bump (planLedger (trs.length * lrc))
      ((List.range lrc).map (fun c => outc 0 c)).length) genericErrorMsg).getLast? =
      some { bump (planLedger (trs.length * lrc))
          ((List.range lrc).map (fun c => outc 0 c)).length with
        status := statusError
        result_path := genericErrorMsg } := rfl
  rw [herr] at hlast
  cases hlast
  exact ⟨rfl, rfl⟩

/-- Witness for the amended C2 at a concrete all-empty run. -/
theorem claim_C2_witness :
    (create_cloudfree_mosaic "q" 1 false true [0] [[0]] 1 fill_nodata
      emptyOutcome).outcome = RunOutcome.errored genericErrorMsg ∧
    ({ status := statusError, scenes_processed := 1, total_scenes := 1,
       result_path := genericErrorMsg } : Ledger).status = statusError ∧
    ({ status := statusError, scenes_processed := 1, total_scenes := 1,
       result_path := genericErrorMsg } : Ledger).result_path = genericErrorMsg := by
  have h := claim_C2_all_empty "q" 1 false [0] [[0]] 1 fill_nodata emptyOutcome
    (by decide) (by decide) (by decide) (fun t c => rfl)
  exact ⟨h.1, (h.2.1 _ (by decide)).1, (h.2.1 _ (by decide)).2⟩

/-! ## Claim C7: a cancelled chunk aborts the whole query -/

/-- C7: when the first abnormal chunk result the orchestrator meets is a
`"CANCEL"` (all earlier groups resolved with at least one tile), the
whole query is aborted: scratch directory removed, query/metadata/result
records deleted, no further group folded, and the ledger never observed
with status OK. -/
theorem claim_C7_cancel_aborts (qid : String) (qc : Nat) (re : Bool) (acq : List Nat)
    (trs : List (List Nat)) (lrc : Nat) (combine : Dataset → Option Dataset → Dataset)
    (outc : Nat → Nat → ChunkOutcome) (g cIdx : Nat)
    (hq : ¬ 1 < qc) (ha : ¬ acq.length < 1)
    (hg : g < trs.length) (hcIdx : cIdx < lrc)
    (hcan : outc g cIdx = ChunkOutcome.CANCEL)
    (hrowpre : ∀ j < cIdx, (outc g j).isCancel = false)
    (hpre : ∀ t < g, (∀ j < lrc, (outc t j).isCancel = false) ∧
      ∃ j < lrc, ∃ p, outc t j = ChunkOutcome.result (some p)) :
    (create_cloudfree_mosaic qid qc re true acq trs lrc combine outc).outcome =
      RunOutcome.cancelled ∧
    (create_cloudfree_mosaic qid qc re true acq trs lrc combine
      outc).recordsDeleted = true ∧
    (create_cloudfree_mosaic qid qc re true acq trs lrc combine
      outc).scratchExists = false ∧
    (create_cloudfree_mosaic qid qc re true acq trs lrc combine
      outc).foldedGroups = g ∧
    ∀ l ∈ (create_cloudfree_mosaic qid qc re true acq trs lrc combine outc).trace,
      l.status ≠ statusOk := by
  obtain ⟨postT, hTs⟩ := rangeSplitEx trs.length g hg
  obtain ⟨postC, hCs⟩ := rangeSplitEx lrc cIdx hcIdx
  have hgroups : dispatchGroups trs.length lrc outc =
      ((List.range g).map (fun t => (List.range lrc).map (fun c => outc t c))) ++
        (((List.range cIdx).map (fun c => outc g c)) ++
          ChunkOutcome.CANCEL :: postC.map (fun c => outc g c)) ::
        postT.map (fun t => (List.range lrc).map (fun c => outc t c)) := by
    unfold dispatchGroups
    rw [hTs, List.map_append, List.map_cons]
    refine congrArg₂ _ rfl (congrArg₂ _ ?_ rfl)
    rw [hCs, List.map_append, List.map_cons]
    simp only [hcan]
  have hpreG : ∀ gg ∈ (List.range g).map
      (fun t => (List.range lrc).map (fun c => outc t c)),
      (∀ o ∈ gg, o.isCancel = false) ∧ somePayloads gg ≠ [] := by
    intro gg hgg
    obtain ⟨t, ht, rfl⟩ := List.mem_map.mp hgg
    have ht2 := List.mem_range.mp ht
    refine ⟨?_, ?_⟩
    · intro o ho
      obtain ⟨cc, hcc, rfl⟩ := List.mem_map.mp ho
      exact (hpre t ht2).1 cc (List.mem_range.mp hcc)
    · obtain ⟨j, hj, p, hp⟩ := (hpre t ht2).2
      exact somePayloads_ne_nil _ (outc t j) p
        (List.mem_map.mpr ⟨j, List.mem_range.mpr hj, rfl⟩) hp
  have hrow : ∀ o ∈ (List.range cIdx).map (fun c => outc g c), o.isCancel = false := by
    intro o ho
    obtain ⟨j, hj, rfl⟩ := List.mem_map.mp ho
    exact hrowpre j (List.mem_range.mp hj)
  obtain ⟨tr, m2, hrun⟩ := runGroups_clean_cancel combine
    ((List.range g).map (fun t => (List.range lrc).map (fun c => outc t c)))
    (planLedger (trs.length * lrc)) [] none 0
    ((List.range cIdx).map (fun c => outc g c)) (postC.map (fun c => outc g c))
    (postT.map (fun t => (List.range lrc).map (fun c => outc t c))) hpreG hrow
  rw [← hgroups] at hrun
  obtain ⟨c, _, htr, _, _⟩ := runGroups_master combine
    (dispatchGroups trs.length lrc outc) (planLedger (trs.length * lrc)) [] none 0
  rw [hrun] at htr
  simp only [GroupsRun.traceOf] at htr
  rw [create_main_cancelled qid qc re acq trs lrc combine outc tr m2 _ hq ha hrun]
  refine ⟨rfl, rfl, rfl, ?_, ?_⟩
  · show 0 + ((List.range g).map
      (fun t => (List.range lrc).map (fun c => outc t c))).length = g
    rw [Nat.zero_add, List.length_map, List.length_range]
  · intro l hl
    rw [htr] at hl
    rcases List.mem_cons.mp hl with rfl | hl
    · decide
    rcases List.mem_cons.mp hl with rfl | hl
    · show statusWait ≠ statusOk
      decide
    · have hst := snapshots_status (planLedger (trs.length * lrc)) c l hl
      rw [hst]
      show statusWait ≠ statusOk
      decide

/-- Oracle for the C7 witness: group 0 resolves with a tile, group 1 is
cancelled. -/
def c7Outcome : Nat → Nat → ChunkOutcome :=
  fun t _ => if t = 0 then ChunkOutcome.result (some (emptyRaster, [(5, 7)]))
    else ChunkOutcome.CANCEL

/-- Witness for C7: two groups of one chunk each, the second cancelled. -/
theorem claim_C7_witness :
    (create_cloudfree_mosaic "q" 1 false true [0] [[0], [1]] 1 fill_nodata
      c7Outcome).outcome = RunOutcome.cancelled ∧
    (create_cloudfree_mosaic "q" 1 false true [0] [[0], [1]] 1 fill_nodata
      c7Outcome).recordsDeleted = true ∧
    (create_cloudfree_mosaic "q" 1 false true [0] [[0], [1]] 1 fill_nodata
      c7Outcome).scratchExists = false ∧
    (create_cloudfree_mosaic "q" 1 false true [0] [[0], [1]] 1 fill_nodata
      c7Outcome).foldedGroups = 1 ∧
    initialLedger.status ≠ statusOk := by
  have hpre7 : ∀ t < 1, (∀ j < 1, (c7Outcome t j).isCancel = false) ∧
      ∃ j < 1, ∃ p, c7Outcome t j = ChunkOutcome.result (some p) := by
    intro t ht
    have ht0 : t = 0 := by omega
    subst ht0
    refine ⟨?_, 0, by omega, (emptyRaster, [(5, 7)]), rfl⟩
    intro j hj
    have hj0 : j = 0 := by omega
    subst hj0
    rfl
  have h := claim_C7_cancel_aborts "q" 1 false [0] [[0], [1]] 1 fill_nodata c7Outcome 1 0
    (by decide) (by decide) (by decide) (by decide) rfl
    (fun j hj => absurd hj (by omega)) hpre7
  exact ⟨h.1, h.2.1, h.2.2.1, h.2.2.2.1, h.2.2.2.2 initialLedger (by decide)⟩

/-! ## Claim C9: additivity of the clean-pixel accounting -/

/-- A completed worker loop appends its `(date, clean_pixels)`
observations to the incoming list and its metadata map is exactly the
incoming map with the new observations tallied in order. -/
theorem chunkLoop_done_obs (env : ChunkEnv) (cfg : ChunkConfig) (acq : List Nat) :
    ∀ (fuel iterIdx ti : Nat) (data : Option Dataset) (meta : AcqMeta)
      (obs : List (Nat × Nat)) (visited : List Nat) (d2 : Option Dataset)
      (m2 : AcqMeta) (o2 : List (Nat × Nat)) (v2 : List Nat),
      chunkLoop env cfg acq fuel iterIdx ti data meta obs visited = .done d2 m2 o2 v2 →
      ∃ newObs, o2 = obs ++ newObs ∧
        m2 = newObs.foldl (fun a e => addAcqDate a e.1 e.2) meta := by
  intro fuel
  induction fuel with
  | zero =>
    intro iterIdx ti data meta obs visited d2 m2 o2 v2 h
    by_cases hti : ti < acq.length
    · rw [chunkLoop, if_pos hti] at h
      cases h
    · rw [chunkLoop, if_neg hti] at h
      injection h with e1 e2 e3 e4
      refine ⟨[], ?_, ?_⟩
      · rw [← e3, List.append_nil]
      · rw [← e2]
        rfl
  | succ f ih =>
    intro iterIdx ti data meta obs visited d2 m2 o2 v2 h
    by_cases hti : ti < acq.length
    · cases hchk : env.checks iterIdx with
      | missing =>
        rw [chunkLoop, if_pos hti, hchk] at h
        cases h
      | cancel =>
        rw [chunkLoop_cancel_exit env cfg acq f iterIdx ti data meta obs visited
          hti hchk] at h
        cases h
      | run =>
        cases hm : (env.fetch (subRange cfg acq ti)).cf_mask with
        | none =>
          rw [chunkLoop_skip env cfg acq f iterIdx ti data meta obs visited
            hti hchk hm] at h
          exact ih _ _ _ _ _ _ _ _ _ _ h
        | some mask =>
          rw [chunkLoop_mask env cfg acq f iterIdx ti data meta obs visited mask
            hti hchk hm] at h
          obtain ⟨newObs, ho, hme⟩ := ih _ _ _ _ _ _ _ _ _ _ h
          refine ⟨sliceObs acq ti mask ++ newObs, ?_, ?_⟩
          · rw [ho, List.append_assoc]
          · rw [List.foldl_append]
            exact hme
    · rw [chunkLoop_exit env cfg acq (f + 1) iterIdx ti data meta obs visited hti] at h
      injection h with e1 e2 e3 e4
      refine ⟨[], ?_, ?_⟩
      · rw [← e3, List.append_nil]
      · rw [← e2]
        rfl

/-- C9: the clean-pixel accounting is additive end to end.  (i) On a
completed query, the final per-date count equals the sum of the per-date
entry sums of all non-empty tiles' metadata maps, in dispatch order.
(ii) A chunk worker that returns `[geo_path, acquisition_metadata]`
reports for each date exactly the additive tally of its per-sub-range
clean-pixel observations of that date.  (iii) Tallying an observation
never decreases any per-date count. -/
theorem claim_C9_additivity :
    (∀ (qid : String) (qc : Nat) (re sm : Bool) (acq : List Nat)
      (trs : List (List Nat)) (lrc : Nat)
      (combine : Dataset → Option Dataset → Dataset)
      (outc : Nat → Nat → ChunkOutcome) (n : Nat),
      (create_cloudfree_mosaic qid qc re sm acq trs lrc combine outc).outcome =
        RunOutcome.ok n →
      ∀ d, dateCount ((create_cloudfree_mosaic qid qc re sm acq trs lrc combine
          outc).finalAcqMeta) d =
        ((tileMetas (dispatchGroups trs.length lrc outc)).map (entrySum d)).sum) ∧
    (∀ (env : ChunkEnv) (cfg : ChunkConfig) (qid : String) (tn cn : Nat)
      (acq : List Nat) (path : String) (m : AcqMeta),
      (generate_TOOL_chunk env cfg qid tn cn acq).result = WorkerResult.saved path m →
      ∀ d, dateCount m d = entrySum d (generate_TOOL_chunk env cfg qid tn cn acq).obs) ∧
    (∀ (acc : AcqMeta) (t px d : Nat),
      dateCount acc d ≤ dateCount (addAcqDate acc t px) d) := by
  refine ⟨?_, ?_, ?_⟩
  · intro qid qc re sm acq trs lrc combine outc n hok d
    by_cases hq : 1 < qc
    · rw [create_repeat qid qc re sm acq trs lrc combine outc hq] at hok
      cases hok
    cases sm with
    | false =>
      rw [create_no_metadata qid qc re acq trs lrc combine outc hq] at hok
      cases hok
    | true =>
      by_cases ha : acq.length < 1
      · rw [create_no_acq qid qc re acq trs lrc combine outc hq ha] at hok
        cases hok
      · cases hrun : runGroups combine (dispatchGroups trs.length lrc outc)
            (planLedger (trs.length * lrc)) [] none 0 with
        | cancelled tr m f =>
          rw [create_main_cancelled qid qc re acq trs lrc combine outc tr m f
            hq ha hrun] at hok
          cases hok
        | concatError led tr m f =>
          rw [create_main_concatError qid qc re acq trs lrc combine outc led tr m f
            hq ha hrun] at hok
          cases hok
        | done led tr m dout f =>
          cases dout with
          | none =>
            rw [create_main_doutNone qid qc re acq trs lrc combine outc led tr m f
              hq ha hrun] at hok
            cases hok
          | some dset =>
            rw [create_main_ok qid qc re acq trs lrc combine outc led tr m dset f
              hq ha hrun]
            have hm := runGroups_done_meta combine (dispatchGroups trs.length lrc outc)
              (planLedger (trs.length * lrc)) [] none 0 led tr m (some dset) f hrun
            show dateCount m d =
              ((tileMetas (dispatchGroups trs.length lrc outc)).map (entrySum d)).sum
            rw [hm, dateCount_fold_merge]
            show 0 + ((tileMetas (dispatchGroups trs.length lrc outc)).map
              (entrySum d)).sum = _
            rw [Nat.zero_add]
  · intro env cfg qid tn cn acq path m h d
    revert h
    unfold generate_TOOL_chunk
    cases hloop : chunkLoop env cfg acq acq.length 0 0 none [] [] [] with
    | missing v => intro h; cases h
    | cancel v => intro h; cases h
    | spin v => intro h; cases h
    | done data meta obs v =>
      cases data with
      | none => intro h; cases h
      | some dd =>
        intro h
        have h2 : WorkerResult.saved (base_temp_path ++ qid ++ "/geo_chunk_" ++
            toString tn ++ "_" ++ toString cn ++ ".nc") meta =
            WorkerResult.saved path m := h
        injection h2 with h3 h4
        obtain ⟨newObs, ho, hfold⟩ := chunkLoop_done_obs env cfg acq acq.length 0 0
          none [] [] [] (some dd) meta obs v hloop
        show dateCount m d = entrySum d obs
        have hobs : obs = newObs := by simpa using ho
        rw [← h4, hfold, dateCount_fold_add, hobs]
        show 0 + entrySum d newObs = entrySum d newObs
        rw [Nat.zero_add]
  · intro acc t px d
    exact dateCount_addAcqDate_le acc t px d

/-- Worker environment for the C9 witness: probe always passes, one
fetch returns a three-timeslice clean-pixel mask over a 1x2 grid. -/
def maskEnv : ChunkEnv :=
  ⟨fun _ => .run,
   fun _ => ⟨emptyRaster, some [[[true, true]], [[true, false]], [[false, false]]]⟩,
   fun d _ _ => d⟩

/-- Witness for C9: (i) the one-group one-chunk completed query of date
0, (ii) a worker whose single fetch observes dates 10, 20, 30 with 2, 1,
0 clean pixels, (iii) a concrete tally step. -/
theorem claim_C9_witness :
    dateCount ((create_cloudfree_mosaic "q" 1 false true [0, 1] [[0, 1]] 1 fill_nodata
      okOutcome).finalAcqMeta) 0 =
      ((tileMetas (dispatchGroups 1 1 okOutcome)).map (entrySum 0)).sum ∧
    dateCount [(10, 2), (20, 1), (30, 0)] 10 =
      entrySum 10 ((generate_TOOL_chunk maskEnv unsetConfig "q" 1 2 [10, 20, 30]).obs) ∧
    dateCount [(1, 2)] 1 ≤ dateCount (addAcqDate [(1, 2)] 1 3) 1 := by
  have h := claim_C9_additivity
  refine ⟨h.1 "q" 1 false true [0, 1] [[0, 1]] 1 fill_nodata okOutcome 2 (by decide) 0,
    ?_, h.2.2 [(1, 2)] 1 3 1⟩
  exact h.2.1 maskEnv unsetConfig "q" 1 2 [10, 20, 30]
    (base_temp_path ++ "q" ++ "/geo_chunk_" ++ toString 1 ++ "_" ++ toString 2 ++ ".nc")
    [(10, 2), (20, 1), (30, 0)] (by decide) 10

end DataCube
